import Mathlib

/-!
Verification of the Argus event-memory pipeline (argus-whatsapp-assistant).

This file shallowly embeds the core of the pipeline:
  * the context compressor in `src/quicksave.ts` (dense event encoding,
    cross-event edge detection),
  * the context matcher's candidate cascade and validation step in
    `src/matcher.ts`,
  * the ingestion pipeline in `src/ingestion.ts` (action routing,
    pending modifications, CRUD update/merge, event creation with context-tag
    resolution, trigger materialization, and the try/catch failure behaviour).

Conventions of the embedding:
  * JavaScript numbers holding Unix timestamps are `Int` (seconds) or, where
    the code works in milliseconds, milliseconds; classifier confidences are
    exact rationals (all thresholds in the code are decimal literals).
  * JavaScript truthiness tests on strings/numbers/option fields are made
    explicit (`truthyD`, `truthyOpt`, guards against `0`).
  * Platform functions (`Date` parsing, locale formatting, `JSON` for arrays
    of strings) are modelled by total Lean functions; date parsing, which is
    input-dependent and external, is a `parseDate : String → Option Int`
    parameter (`none` models a `NaN`/`Invalid Date` result).
  * The language-model collaborator's replies (`detectAction`,
    `extractEvents`, `validateRelevance`) are parameters holding the reply
    the call would deliver if it succeeds.
  * The storage collaborator (`db.ts`, not part of the provided sources) is
    modelled from the spec, §6: an in-memory event list inside `IngestSt`;
    every collaborator call goes through `callOp`, which logs a `CallTag`
    and consults a failure oracle so that thrown collaborator errors and the
    surrounding try/catch can be reasoned about.
-/

/-! ## String helpers (character-level models of the JS string operations) -/

/-- Lower-casing, as `String#toLowerCase` (character-wise model). -/
def lowerStr (s : String) : String := String.mk (s.data.map Char.toLower)

/-- Whether `needle` occurs inside `hay`, on character lists. -/
def listInfixB (needle : List Char) : List Char → Bool
  | [] => needle.isEmpty
  | c :: cs => needle.isPrefixOf (c :: cs) || listInfixB needle cs

/-- Model of JavaScript `hay.includes(sub)`. -/
def strContains (hay sub : String) : Bool := listInfixB sub.data hay.data

/-- Whitespace recognised by trimming. -/
def isWsChar (c : Char) : Bool := c == ' ' || c == '\t' || c == '\n' || c == '\r'

/-- Model of `String#trim`. -/
def trimStr (s : String) : String :=
  String.mk (((s.data.dropWhile isWsChar).reverse.dropWhile isWsChar).reverse)

/-- Split a character list at a separator character; standard split, so
`n` separators yield `n + 1` fields. -/
def splitChars (sep : Char) : List Char → List (List Char)
  | [] => [[]]
  | c :: cs =>
    match splitChars sep cs with
    | [] => [[]]
    | h :: t => if c = sep then [] :: h :: t else (c :: h) :: t

/-- Model of JavaScript `s.split(c)` for a one-character separator. -/
def splitOnChar (sep : Char) (s : String) : List String :=
  (splitChars sep s.data).map String.mk

/-- Model of JavaScript `Array#join(sep)`. -/
def joinWith (sep : String) : List String → String
  | [] => ""
  | [s] => s
  | s :: rest => s ++ sep ++ joinWith sep rest

/-- JavaScript `x || d` for a nullable string `x`: `null`/`undefined` and the
empty string are falsy. -/
def truthyD (o : Option String) (d : String) : String :=
  match o with
  | some s => if s = "" then d else s
  | none => d

/-- A nullable string field as used in a JS condition: present and non-empty. -/
def truthyOpt (o : Option String) : Option String :=
  match o with
  | some s => if s = "" then none else some s
  | none => none

/-- A nullable JS number used in a condition: `0` is falsy. -/
def truthyNat (o : Option Nat) : Option Nat :=
  match o with
  | some 0 => none
  | x => x

/-- A nullable JS number (timestamp) used in a condition: `0` is falsy. -/
def truthyInt (o : Option Int) : Option Int :=
  match o with
  | some t => if t = 0 then none else some t
  | none => none

/-! ## JSON model for arrays of strings

`JSON.stringify` / `JSON.parse` are platform builtins; the pipeline only
round-trips flat arrays of strings through them (participant lists).
The model covers exactly the serialization format `["a","b"]` without escape
sequences; any other input fails to parse, which models the `catch` branch
the code keeps for a non-JSON value such as a plain contact name. -/

/-- Serialize a list of strings the way `JSON.stringify` lays it out. -/
def jsonStringifyStrList (l : List String) : String :=
  "[" ++ joinWith "," (l.map (fun s => "\"" ++ s ++ "\"")) ++ "]"

/-- Parse the comma-separated quoted items of a JSON string array (after the
opening bracket), with fuel bounded by the input length. -/
def parseJsonItems : Nat → List Char → Option (List String)
  | _, [] => none
  | fuel, c :: cs =>
    if c = '"' then
      let content := cs.takeWhile (fun ch => ch != '"')
      match cs.dropWhile (fun ch => ch != '"') with
      | '"' :: ',' :: more =>
        (match fuel with
         | 0 => none
         | f + 1 => (parseJsonItems f more).map (fun l => String.mk content :: l))
      | ['"', ']'] => some [String.mk content]
      | _ => none
    else none

/-- Model of `JSON.parse` restricted to arrays of escape-free strings:
`none` models a thrown `SyntaxError`. -/
def jsonParseStrList (s : String) : Option (List String) :=
  match s.data with
  | ['[', ']'] => some []
  | '[' :: rest => parseJsonItems rest.length rest
  | _ => none

/-! ## Date formatting models

The code formats Unix timestamps with `Date#toLocaleDateString('en-US', …)`,
`Date#toLocaleTimeString('en-US', …)`, `Date#toISOString` and `Date#getDay`.
These are modelled deterministically in UTC using the standard civil-from-days
calendar algorithm. -/

/-- Zero-padded two-digit decimal. -/
def pad2 (n : Nat) : String := if n < 10 then "0" ++ toString n else toString n

/-- Gregorian calendar date (year, month 1–12, day 1–31) of a day count from
1970-01-01 (Howard Hinnant's civil-from-days algorithm). -/
def civilFromDays (z0 : Int) : Int × Nat × Nat :=
  let z := z0 + 719468
  let era : Int := z.fdiv 146097
  let doe : Nat := (z - era * 146097).toNat
  let yoe : Nat := (doe - doe / 1460 + doe / 36524 - doe / 146096) / 365
  let y : Int := (yoe : Int) + era * 400
  let doy : Nat := doe - (365 * yoe + yoe / 4 - yoe / 100)
  let mp : Nat := (5 * doy + 2) / 153
  let d : Nat := doy - (153 * mp + 2) / 5 + 1
  let m : Nat := if mp < 10 then mp + 3 else mp - 9
  (if m ≤ 2 then y + 1 else y, m, d)

/-- Day of week of a Unix timestamp, 0 = Sunday (1970-01-01 was a Thursday). -/
def weekdayOf (t : Int) : Nat := ((t.fdiv 86400 + 4).emod 7).toNat

/-- Seconds of day of a Unix timestamp. -/
def secondsOfDay (t : Int) : Nat := (t.emod 86400).toNat

def monthShortName (m : Nat) : String :=
  match m with
  | 1 => "Jan" | 2 => "Feb" | 3 => "Mar" | 4 => "Apr" | 5 => "May" | 6 => "Jun"
  | 7 => "Jul" | 8 => "Aug" | 9 => "Sep" | 10 => "Oct" | 11 => "Nov" | _ => "Dec"

def weekdayShortName (w : Nat) : String :=
  match w with
  | 0 => "Sun" | 1 => "Mon" | 2 => "Tue" | 3 => "Wed" | 4 => "Thu" | 5 => "Fri" | _ => "Sat"

def weekdayFullName (w : Nat) : String :=
  match w with
  | 0 => "Sunday" | 1 => "Monday" | 2 => "Tuesday" | 3 => "Wednesday"
  | 4 => "Thursday" | 5 => "Friday" | _ => "Saturday"

/-- Model of `toLocaleTimeString('en-US', { hour: 'numeric', minute: '2-digit' })`. -/
def fmtTime12 (t : Int) : String :=
  let secs := secondsOfDay t
  let h := secs / 3600
  let m := secs % 3600 / 60
  let h12 := if h % 12 = 0 then 12 else h % 12
  let ampm := if h < 12 then "AM" else "PM"
  toString h12 ++ ":" ++ pad2 m ++ " " ++ ampm

/-- Model of `toLocaleDateString('en-US', { weekday: 'short', month: 'short', day: 'numeric' })`. -/
def fmtDateShort (t : Int) : String :=
  let (_, m, d) := civilFromDays (t.fdiv 86400)
  weekdayShortName (weekdayOf t) ++ ", " ++ monthShortName m ++ " " ++ toString d

/-- Model of `toLocaleDateString('en-US', { month: 'short', day: 'numeric' })`. -/
def fmtDateMD (t : Int) : String :=
  let (_, m, d) := civilFromDays (t.fdiv 86400)
  monthShortName m ++ " " ++ toString d

/-- Model of `Date#toISOString` for whole-second timestamps. -/
def isoStringModel (t : Int) : String :=
  let (y, m, d) := civilFromDays (t.fdiv 86400)
  let secs := secondsOfDay t
  toString y ++ "-" ++ pad2 m ++ "-" ++ pad2 d ++ "T" ++
    pad2 (secs / 3600) ++ ":" ++ pad2 (secs % 3600 / 60) ++ ":" ++ pad2 (secs % 60) ++ ".000Z"

/-! ## Data model (`src/ingestion.ts`, `src/types.ts`, spec §3)

`StoredEvent` is the storage collaborator's event row; `participants` is the
JSON-serialized string the code stores. `created_at` is the row creation time
(spec §3), used by the spec-modelled store search primitives. -/

structure StoredEvent where
  id : Nat
  message_id : Option String := none
  event_type : String
  title : String
  description : Option String := none
  event_time : Option Int := none
  location : Option String := none
  participants : String := "[]"
  keywords : String := ""
  confidence : ℚ := 0
  status : String := "discovered"
  context_url : Option String := none
  sender_name : Option String := none
  created_at : Int := 0
deriving DecidableEq, Repr

/-- One candidate returned by the language model's `extractEvents` call
(`extraction.events` element, with the optional CRUD fields). -/
structure ExtractedEvent where
  type : String
  title : String
  description : Option String := none
  event_time : Option String := none
  location : Option String := none
  participants : List String := []
  keywords : List String := []
  confidence : ℚ
  event_action : Option String := none
  target_event_id : Option Nat := none
deriving DecidableEq, Repr

/-- The reply of the language model's `detectAction` call. -/
structure DetectedAction where
  isAction : Bool
  action : String
  confidence : ℚ
  targetDescription : String := ""
  targetKeywords : List String := []
  snoozeMinutes : Option Nat := none
  newTime : Option String := none
  newTitle : Option String := none
  newLocation : Option String := none
  newDescription : Option String := none
deriving DecidableEq, Repr

structure ActionResult where
  action : String
  targetEventId : Nat
  targetEventTitle : String
  message : String
deriving DecidableEq, Repr

/-- The `proposedChanges` record a `modify` action builds (ingestion.ts:181). -/
structure ProposedChanges where
  event_time : Option Int := none
  title : Option String := none
  location : Option String := none
  description : Option String := none
deriving DecidableEq, Repr

/-- `Object.keys(proposedChanges).length > 0` is false. -/
def ProposedChanges.isEmpty (p : ProposedChanges) : Bool :=
  p.event_time.isNone && p.title.isNone && p.location.isNone && p.description.isNone

structure PendingAction where
  action : String
  targetEventId : Nat
  targetEventTitle : String
  changes : ProposedChanges
  description : String
deriving DecidableEq, Repr

structure ConflictInfo where
  id : Nat
  title : String
  event_time : Option Int
deriving DecidableEq, Repr

structure CreatedEvent where
  id : Nat
  event_type : String
  title : String
  description : Option String
  event_time : Option Int
  location : Option String
  participants : String
  keywords : String
  confidence : ℚ
  context_url : Option String := none
  sender_name : Option String := none
  conflicts : Option (List ConflictInfo) := none
deriving DecidableEq, Repr

structure IngestionResult where
  messageId : String
  eventsCreated : Nat
  triggersCreated : Nat
  skipped : Bool
  skipReason : Option String := none
  events : Option (List CreatedEvent) := none
  actionPerformed : Option ActionResult := none
  pendingAction : Option PendingAction := none
deriving DecidableEq, Repr

structure Message where
  id : String
  chat_id : String
  sender : String
  content : String
  timestamp : Int
deriving DecidableEq, Repr

structure TriggerRec where
  event_id : Nat
  trigger_type : String
  trigger_value : String
  is_fired : Bool
deriving DecidableEq, Repr

/-! ## Context compressor (`src/quicksave.ts`) -/

/-- The event shape `quicksave.ts` consumes. -/
structure CompressibleEvent where
  id : Nat
  title : String
  description : Option String := none
  event_type : String
  event_time : Option Int := none
  location : Option String := none
  status : String
  keywords : String
  sender_name : Option String := none
  context_url : Option String := none
  created_at : Option Int := none
deriving DecidableEq, Repr

def STATUS_MARKERS : List (String × String) :=
  [("discovered", "🆕"), ("scheduled", "⏰"), ("completed", "✅"), ("ignored", "🚫"),
   ("snoozed", "💤"), ("reminded", "🔔"), ("expired", "⌛")]

def TYPE_MARKERS : List (String × String) :=
  [("meeting", "MTG"), ("deadline", "DL"), ("reminder", "RMD"), ("travel", "TRV"),
   ("task", "TSK"), ("subscription", "SUB"), ("recommendation", "REC"), ("other", "OTH")]

/-- `TABLE[key] || default`. -/
def lookupD (table : List (String × String)) (k d : String) : String :=
  match table.find? (fun p => p.1 == k) with
  | some p => p.2
  | none => d

/-- The 8-entry `parts` array built for one event in
`compressEventsForPrompt` (quicksave.ts:156-183); `nowMs` is `Date.now()`.
A zero `event_time` is falsy in the `if (e.event_time)` test. -/
def denseFields (nowMs : Int) (e : CompressibleEvent) : List String :=
  let type := lookupD TYPE_MARKERS e.event_type "OTH"
  let status := lookupD STATUS_MARKERS e.status "❓"
  let timeStr :=
    match e.event_time with
    | some t =>
      if t ≠ 0 then
        let base := fmtDateShort t ++ " " ++ fmtTime12 t
        if t * 1000 < nowMs then base ++ " [PAST]" else base
      else "—"
    | none => "—"
  ["#" ++ toString e.id, type, status, "\"" ++ e.title ++ "\"", timeStr,
   truthyD e.location "—", truthyD e.sender_name "?", e.keywords]

/-- `parts.join('|')`: the dense single-line encoding of one event. -/
def compressEventLine (nowMs : Int) (e : CompressibleEvent) : String :=
  joinWith "|" (denseFields nowMs e)

inductive EdgeRelation where
  | cancels | updates | conflicts | related | same_topic
deriving DecidableEq, Repr

structure EventEdge where
  sourceId : Nat
  targetId : Nat
  relation : EdgeRelation
deriving DecidableEq, Repr

/-- The keyword set of an event as `detectEventEdges` precomputes it:
lower-cased, comma-split, trimmed, tokens longer than 2 characters, as a
`Set` (first-occurrence deduplication). -/
def kwSet (e : CompressibleEvent) : List String :=
  (((splitOnChar ',' (lowerStr e.keywords)).map trimStr).filter (fun k => k.length > 2)).eraseDups

/-- The edges `detectEventEdges` pushes for the ordered pair `(a, b)`
(quicksave.ts:226-251): a keyword-overlap edge first, then a time-conflict
edge. The `if (events[i].event_time && events[j].event_time)` test is a JS
truthiness test, so a timestamp of `0` behaves like an absent time. -/
def pairEdges (a b : CompressibleEvent) : List EventEdge :=
  let kwA := kwSet a
  let kwB := kwSet b
  let overlap := kwA.filter (fun k => kwB.contains k)
  let kwEdges :=
    if overlap.length ≥ 2 then
      let titleA := lowerStr a.title
      let titleB := lowerStr b.title
      let aIsSub := a.event_type == "subscription"
      let bIsSub := b.event_type == "subscription"
      let aIsCancel := strContains titleA "cancel" || strContains titleA "unsubscribe"
      let bIsCancel := strContains titleB "cancel" || strContains titleB "unsubscribe"
      if (aIsSub && bIsCancel) || (bIsSub && aIsCancel) then
        [EventEdge.mk a.id b.id EdgeRelation.cancels]
      else
        [EventEdge.mk a.id b.id EdgeRelation.same_topic]
    else []
  let timeEdges :=
    match a.event_time, b.event_time with
    | some ta, some tb =>
      if ta ≠ 0 ∧ tb ≠ 0 then
        let diff := (ta - tb).natAbs
        if diff ≤ 3600 ∧ diff > 0 then [EventEdge.mk a.id b.id EdgeRelation.conflicts] else []
      else []
    | _, _ => []
  kwEdges ++ timeEdges

/-- Inner loop of `detectEventEdges`: pairs of `a` with each later event. -/
def edgesFrom (a : CompressibleEvent) : List CompressibleEvent → List EventEdge
  | [] => []
  | b :: rest => pairEdges a b ++ edgesFrom a rest

/-- The nested pair loop of `detectEventEdges`. -/
def edgesAll : List CompressibleEvent → List EventEdge
  | [] => []
  | a :: rest => edgesFrom a rest ++ edgesAll rest

/-- `detectEventEdges` (quicksave.ts:212-256). -/
def detectEventEdges (events : List CompressibleEvent) : List EventEdge :=
  if events.length < 2 then [] else edgesAll events

/-! ## Context matcher (`src/matcher.ts`)

`extractContextFromUrl` is a table of JavaScript regular expressions over the
visited URL; the matcher is embedded from Step 2 onward, taking the extracted
keyword list as input. The two store search primitives live in `db.ts`, which
is not among the provided sources, and are modelled from the spec (§4.3
Step 2, §6). -/

structure RelevanceValidation where
  relevant : List Nat
  confidence : ℚ
deriving DecidableEq, Repr

structure ContextCheckResponse where
  matched : Bool
  events : List StoredEvent
  confidence : ℚ
deriving DecidableEq, Repr

/-- Modelled from the spec: `searchEventsByLocation` — events whose location
contains the keyword (case-insensitively), bounded by the hot window over
`created_at` and capped. -/
def searchEventsByLocationModel (kw : String) (hotWindowDays : Nat) (cap : Nat)
    (now : Int) (store : List StoredEvent) : List StoredEvent :=
  (store.filter (fun e =>
    (match e.location with
     | some l => strContains (lowerStr l) (lowerStr kw)
     | none => false) &&
    decide (now - (hotWindowDays : Int) * 86400 ≤ e.created_at))).take cap

/-- Modelled from the spec: `searchEventsByKeywords` — full-text relevance
search: an event matches if any keyword occurs in its title, keywords or
description (case-insensitively), same window and cap. -/
def searchEventsByKeywordsModel (kws : List String) (hotWindowDays : Nat) (cap : Nat)
    (now : Int) (store : List StoredEvent) : List StoredEvent :=
  (store.filter (fun e =>
    (kws.any (fun kw =>
      strContains (lowerStr (e.title ++ " " ++ e.keywords ++ " " ++ truthyD e.description "")) (lowerStr kw))) &&
    decide (now - (hotWindowDays : Int) * 86400 ≤ e.created_at))).take cap

/-- Step 2's first cascade (matcher.ts:102-105): try an exact location match
per keyword in order, stopping at the first keyword with any candidates. -/
def cascadeLocationSearch (hotWindowDays : Nat) (now : Int) (store : List StoredEvent) :
    List String → List StoredEvent
  | [] => []
  | kw :: rest =>
    let candidates := searchEventsByLocationModel kw hotWindowDays 10 now store
    if candidates ≠ [] then candidates else cascadeLocationSearch hotWindowDays now store rest

/-- The candidate set Step 2 produces: the location cascade, else the
full-text fallback (matcher.ts:99-110). -/
def matchCandidates (keywords : List String) (hotWindowDays : Nat) (now : Int)
    (store : List StoredEvent) : List StoredEvent :=
  let candidates := cascadeLocationSearch hotWindowDays now store keywords
  if candidates = [] then searchEventsByKeywordsModel keywords hotWindowDays 10 now store
  else candidates

/-- `matchContext` (matcher.ts:81-139) from Step 2 onward: `keywords` is the
deterministic URL extraction's result, `validate` the language model's
`validateRelevance` reply as a function of the candidate list it is shown. -/
def matchContext (keywords : List String) (hotWindowDays : Nat) (now : Int)
    (store : List StoredEvent) (validate : List StoredEvent → RelevanceValidation) :
    ContextCheckResponse :=
  if keywords = [] then { matched := false, events := [], confidence := 0 }
  else
    let candidates := matchCandidates keywords hotWindowDays now store
    if candidates = [] then { matched := false, events := [], confidence := 0 }
    else
      let validation := validate candidates
      if validation.relevant = [] then
        { matched := false, events := [], confidence := validation.confidence }
      else
        let matchedEvents := validation.relevant.filterMap (fun idx => candidates[idx]?)
        { matched := true, events := matchedEvents, confidence := validation.confidence }

/-! ## Time normalization (`src/ingestion.ts`, week-forward heuristic) -/

/-- One week in seconds (`7 * 24 * 3600`). -/
def weekSec : Int := 7 * 24 * 3600

/-- The `while (parsedTime < nowUnix) parsedTime += weekSec` loop. -/
def pushForwardWeeks (t now : Int) : Int :=
  if t < now then pushForwardWeeks (t + weekSec) now else t
termination_by (now - t).toNat
decreasing_by
  simp only [weekSec] at *
  omega

/-- The past-date guard: a time more than one hour in the past is pushed
forward week by week until no longer before `now` (ingestion.ts:188-192,
313-317, 386-390). -/
def fixPastTime (t now : Int) : Int :=
  if t < now - 3600 then pushForwardWeeks t now else t

/-- Event-time normalization of the create path (ingestion.ts:376-395):
`parsed` is the platform date-parse result (`none` for `NaN`), and any
successfully parsed time is run through the past-date guard. -/
def parseCreateEventTime (parsed : Option Int) (now : Int) : Option Int :=
  match parsed with
  | none => none
  | some t => some (fixPastTime t now)

/-- Event-time normalization of the `modify` action (ingestion.ts:185-199)
and of the CRUD update path (ingestion.ts:309-319): same guard, but behind an
additional `parsedTime > 0` check, so a non-positive parse result is dropped. -/
def parseGuardedEventTime (parsed : Option Int) (now : Int) : Option Int :=
  match parsed with
  | none => none
  | some t => if 0 < t then some (fixPastTime t now) else none

/-! ## Context-tag resolution (`src/ingestion.ts:397-476`) -/

def serviceKeywords : List String :=
  ["netflix", "hotstar", "amazon", "prime", "disney", "spotify",
   "youtube", "hulu", "hbo", "zee5", "sonyliv", "jiocinema",
   "canva", "figma", "notion", "slack", "zoom",
   "gym", "domain", "hosting", "hostinger", "aws", "azure", "vercel", "heroku"]

def travelKeywords : List String :=
  ["goa", "mumbai", "delhi", "bangalore", "chennai", "kolkata", "hyderabad",
   "jaipur", "udaipur", "kerala", "manali", "shimla", "ladakh", "kashmir",
   "thailand", "bali", "singapore", "dubai", "maldives", "europe"]

def beautyKeywords : List String :=
  ["makeup", "beauty", "cosmetic", "skincare", "lipstick", "foundation", "perfume", "fragrance", "nykaa"]

def fashionKeywords : List String :=
  ["sneakers", "shoes", "clothes", "dress", "fashion", "shirt", "jeans", "kurta", "saree",
   "myntra", "nike", "adidas", "puma"]

def giftKeywords : List String := ["gift", "birthday", "anniversary", "present"]

def contextPlaces : List String := ["goa", "mumbai", "delhi", "bangalore", "chennai", "kolkata"]

/-- The lower-cased search text built from location, keywords, title and
description (ingestion.ts:409, recomputed identically at 428). -/
def searchTextOf (ev : ExtractedEvent) : String :=
  lowerStr ((truthyD ev.location "") ++ " " ++ joinWith " " ev.keywords ++ " " ++
    ev.title ++ " " ++ (truthyD ev.description ""))

/-- Context-tag (`context_url`) resolution for a candidate event
(ingestion.ts:397-476): service keywords first; travel keywords overwrite for
travel/recommendation types; beauty/fashion/gift buckets for recommendations
with no tag yet; finally direct place names in the location. -/
def resolveContextUrl (ev : ExtractedEvent) : Option String :=
  let searchText := searchTextOf ev
  let ctx1 := serviceKeywords.find? (fun s => strContains searchText s)
  let ctx2 :=
    if ev.type = "travel" ∨ ev.type = "recommendation" then
      let travelSearchText := searchTextOf ev
      match travelKeywords.find? (fun p => strContains travelSearchText p) with
      | some p => some p
      | none => ctx1
    else ctx1
  let ctx3 :=
    if ctx2 = none ∧ ev.type = "recommendation" then
      let shoppingText := lowerStr (joinWith " " ev.keywords ++ " " ++ ev.title ++ " " ++
        (truthyD ev.description ""))
      let isBeauty := beautyKeywords.any (fun k => strContains shoppingText k)
      let isFashion := fashionKeywords.any (fun k => strContains shoppingText k)
      let isGift := giftKeywords.any (fun k => strContains shoppingText k)
      if isBeauty then some "nykaa"
      else if isFashion then some "myntra"
      else if isGift then some "amazon"
      else none
    else ctx2
  if ctx3 = none then
    match truthyOpt ev.location with
    | some loc => contextPlaces.find? (fun p => strContains (lowerStr loc) p)
    | none => none
  else ctx3

/-- Initial status of a created event (ingestion.ts:478-481): a resolved
context tag sends it straight to `scheduled`, otherwise `discovered`. -/
def initialStatusOf (contextUrl : Option String) : String :=
  if contextUrl.isSome then "scheduled" else "discovered"

/-! ## Collaborator-call instrumentation

Every language-model and storage call the pipeline makes is represented by a
`callOp` step: it logs the call in `trace`, and consults `oracle` (indexed by
the running call counter) to decide whether this call throws. Once `failed`
is set, no further call runs and no further state changes — modelling the
exception unwinding until the nearest `catch` (the `try` block of
`processMessage`) or the caller of `processWebhook`. -/

inductive CallTag where
  | insertMessage | upsertContact | getRecentMessages | getActiveEvents
  | detectAction | findActiveEventsByKeywords
  | deleteEvent | completeEvent | ignoreEvent | snoozeEvent | updateEvent
  | extractEvents | findDuplicateEvent | insertEvent | checkEventConflicts | insertTrigger
deriving DecidableEq, Repr

structure IngestSt where
  store : List StoredEvent
  messages : List Message
  triggers : List TriggerRec
  nextEventId : Nat
  oracle : Nat → Bool
  callIdx : Nat
  trace : List CallTag
  failed : Bool

/-- Perform one collaborator call: a no-op once failed, otherwise log it and
let the oracle decide whether it throws. The returned flag is whether the
call succeeded. -/
def callOp (tag : CallTag) (σ : IngestSt) : IngestSt × Bool :=
  if σ.failed then (σ, false)
  else
    let fails := σ.oracle σ.callIdx
    ({ σ with callIdx := σ.callIdx + 1, trace := σ.trace ++ [tag], failed := fails }, !fails)

/-! ## Spec-modelled storage primitives (`db.ts` is not among the sources) -/

/-- Modelled from the spec: an event counts as active unless in a terminal
status (`completed`, `ignored`); deleted events are gone from the store. -/
def isActiveStatus (s : String) : Bool := s != "completed" && s != "ignored"

/-- Modelled from the spec: `getActiveEvents(limit)` — the most recently
stored active events, newest first. -/
def getActiveEventsModel (store : List StoredEvent) (n : Nat) : List StoredEvent :=
  ((store.filter (fun e => isActiveStatus e.status)).reverse).take n

/-- Modelled from the spec: `findActiveEventsByKeywords` — active events whose
keyword string contains any of the given keywords (case-insensitively). -/
def findActiveEventsByKeywordsModel (kws : List String) (store : List StoredEvent) :
    List StoredEvent :=
  store.filter (fun e =>
    isActiveStatus e.status &&
    kws.any (fun kw => strContains (lowerStr e.keywords) (lowerStr kw)))

/-- Modelled from the spec: `findDuplicateEvent(title, hours)` — an event
created within the window whose normalized title equals the candidate's
(consistent with §8: a longer title does not collide with a shorter one). -/
def findDuplicateEventModel (title : String) (hours : Nat) (now : Int)
    (store : List StoredEvent) : Option StoredEvent :=
  store.find? (fun e =>
    decide (now - (hours : Int) * 3600 ≤ e.created_at) &&
    trimStr (lowerStr e.title) == trimStr (lowerStr title))

/-- Modelled from the spec: `checkEventConflicts(t, minutes)` — scheduled
events whose time lies within the window around `t`. -/
def checkEventConflictsModel (t : Int) (windowMinutes : Nat) (store : List StoredEvent) :
    List StoredEvent :=
  store.filter (fun e =>
    e.status == "scheduled" &&
    (match e.event_time with
     | some t2 => decide ((t2 - t).natAbs ≤ windowMinutes * 60)
     | none => false))

structure UpdateFields where
  title : Option String := none
  description : Option String := none
  location : Option String := none
  event_time : Option Int := none
  keywords : Option String := none
  participants : Option String := none
deriving DecidableEq, Repr

/-- `Object.keys(updateFields).length > 0` is false. -/
def UpdateFields.isEmpty (f : UpdateFields) : Bool :=
  f.title.isNone && f.description.isNone && f.location.isNone &&
  f.event_time.isNone && f.keywords.isNone && f.participants.isNone

/-- Apply a field-update record to one event row. -/
def applyUpdateFields (f : UpdateFields) (e : StoredEvent) : StoredEvent :=
  { e with
    title := f.title.getD e.title,
    description := match f.description with | some d => some d | none => e.description,
    location := match f.location with | some l => some l | none => e.location,
    event_time := match f.event_time with | some t => some t | none => e.event_time,
    keywords := f.keywords.getD e.keywords,
    participants := f.participants.getD e.participants }

/-- Modelled from the spec: `updateEvent(id, fields)` — apply the fields to
the matching row; the flag reports whether a row matched. -/
def updateEventModel (tid : Nat) (f : UpdateFields) (store : List StoredEvent) :
    List StoredEvent × Bool :=
  (store.map (fun e => if e.id == tid then applyUpdateFields f e else e),
   store.any (fun e => e.id == tid))

/-- Modelled from the spec: status transition primitives set the status of
the matching row. -/
def setStatusModel (eid : Nat) (st : String) (store : List StoredEvent) : List StoredEvent :=
  store.map (fun e => if e.id == eid then { e with status := st } else e)

/-! ## Action routing (`processWebhook` STEP 1, ingestion.ts:117-255) -/

/-- Target resolution (ingestion.ts:129-143): best keyword match over active
events, else the most recent active event. -/
def resolveTargetPure (kws : List String) (activeEvents store : List StoredEvent) :
    Option StoredEvent :=
  let byKeywords :=
    if kws ≠ [] then (findActiveEventsByKeywordsModel kws store).head? else none
  match byKeywords with
  | some t => some t
  | none => activeEvents.head?

/-- Human-readable snooze duration banding (ingestion.ts:173). -/
def snoozeDurationText (minutes : Nat) : String :=
  if minutes ≥ 10080 then "next week"
  else if minutes ≥ 1440 then "tomorrow"
  else if minutes ≥ 60 then toString ((minutes + 30) / 60) ++ " hours"
  else toString minutes ++ " minutes"

/-- The proposed-changes record a `modify` action builds
(ingestion.ts:181-203): the new time is parsed, required positive, and run
through the past-date guard; the other fields are taken when truthy. -/
def buildProposedChanges (det : DetectedAction) (parseDate : String → Option Int)
    (now : Int) : ProposedChanges :=
  { event_time :=
      match truthyOpt det.newTime with
      | none => none
      | some s => parseGuardedEventTime (parseDate s) now,
    title := truthyOpt det.newTitle,
    location := truthyOpt det.newLocation,
    description := truthyOpt det.newDescription }

/-- The human-readable diff string for a pending modification
(ingestion.ts:206-216); `dayNames[d.getDay()]` and the `en-US` short date
are rendered by the date-formatting models. -/
def changeDescOf (p : ProposedChanges) : String :=
  let parts :=
    (match p.title with
     | some t => ["title → \"" ++ t ++ "\""]
     | none => []) ++
    (match p.event_time with
     | some t =>
       if t ≠ 0 then
         ["time → " ++ weekdayFullName (weekdayOf t) ++ ", " ++ fmtDateMD t ++ " " ++ fmtTime12 t]
       else []
     | none => []) ++
    (match p.location with
     | some l => ["location → \"" ++ l ++ "\""]
     | none => []) ++
    (match p.description with
     | some _ => ["description updated"]
     | none => [])
  joinWith ", " parts

/-- The `switch (actionResult.action)` over a resolved target event
(ingestion.ts:149-253), including the common `actionPerformed` return and
the early `pendingAction` return of the `modify` case. -/
def actionSwitch (msg : Message) (det : DetectedAction) (te : StoredEvent)
    (parseDate : String → Option Int) (now : Int) (σ : IngestSt) :
    Option IngestionResult × IngestSt :=
  let eid := te.id
  let finish := fun (actionMessage : String) (σf : IngestSt) =>
    (some { messageId := msg.id, eventsCreated := 0, triggersCreated := 0, skipped := false,
            actionPerformed := some ⟨det.action, eid, te.title, actionMessage⟩ },
     σf)
  if det.action = "cancel" ∨ det.action = "delete" then
    let r := callOp CallTag.deleteEvent σ
    let σ2 :=
      { r.1 with store := if r.2 then r.1.store.filter (fun e => e.id != eid) else r.1.store,
                 triggers := if r.2 then r.1.triggers.filter (fun t => t.event_id != eid)
                             else r.1.triggers }
    finish ("Deleted: \"" ++ te.title ++ "\"") σ2
  else if det.action = "complete" then
    let r := callOp CallTag.completeEvent σ
    let σ2 := { r.1 with store := if r.2 then setStatusModel eid "completed" r.1.store
                                  else r.1.store }
    finish ("Completed: \"" ++ te.title ++ "\"") σ2
  else if det.action = "ignore" then
    let r := callOp CallTag.ignoreEvent σ
    let σ2 := { r.1 with store := if r.2 then setStatusModel eid "ignored" r.1.store
                                  else r.1.store }
    finish ("Ignored: \"" ++ te.title ++ "\" - won't remind again") σ2
  else if det.action = "snooze" ∨ det.action = "postpone" then
    let minutes := match det.snoozeMinutes with | some m => if m ≠ 0 then m else 30 | none => 30
    let r := callOp CallTag.snoozeEvent σ
    let σ2 := { r.1 with store := if r.2 then setStatusModel eid "snoozed" r.1.store
                                  else r.1.store }
    finish ("Snoozed: \"" ++ te.title ++ "\" → will remind " ++ snoozeDurationText minutes) σ2
  else if det.action = "modify" then
    let proposedChanges := buildProposedChanges det parseDate now
    if proposedChanges.isEmpty then
      finish "Modify requested but no changes specified" σ
    else
      (some { messageId := msg.id, eventsCreated := 0, triggersCreated := 0, skipped := false,
              pendingAction := some ⟨"modify", eid, te.title, proposedChanges,
                                     changeDescOf proposedChanges⟩ },
       σ)
  else
    finish ("Unknown action: " ++ det.action) σ

/-- STEP 1 of `processWebhook` (ingestion.ts:126-255): the routing gate, the
target resolution and the action switch. `none` as first component means no
action handled this message and control passes to the extractor. When the
keyword search throws, the unreachable continuation is cut off by the caller
through the `failed` flag. -/
def handleAction (msg : Message) (det : DetectedAction) (activeEvents : List StoredEvent)
    (parseDate : String → Option Int) (now : Int) (σ : IngestSt) :
    Option IngestionResult × IngestSt :=
  if det.isAction = true ∧ mkRat 6 10 ≤ det.confidence ∧ det.action ≠ "none" then
    let r :=
      if det.targetKeywords ≠ [] then callOp CallTag.findActiveEventsByKeywords σ
      else (σ, true)
    if r.2 then
      match resolveTargetPure det.targetKeywords activeEvents r.1.store with
      | some te =>
        if te.id ≠ 0 then actionSwitch msg det te parseDate now r.1
        else (none, r.1)
      | none => (none, r.1)
    else (none, r.1)
  else (none, σ)

/-! ## Event extraction loop (`processMessage`, ingestion.ts:263-587) -/

/-- The counters and result list the `processMessage` loop accumulates; they
survive a thrown collaborator error because the surrounding `catch` returns
whatever was accumulated. -/
structure ExtractCounters where
  eventsCreated : Nat := 0
  triggersCreated : Nat := 0
  createdEvents : List CreatedEvent := []
deriving DecidableEq, Repr

/-- Insert a trigger row (counted by the caller on success). -/
def insertTriggerOp (tr : TriggerRec) (σ : IngestSt) : IngestSt × Bool :=
  let r := callOp CallTag.insertTrigger σ
  (if r.2 then { r.1 with triggers := r.1.triggers ++ [tr] } else r.1, r.2)

/-- The three time-trigger intervals (ingestion.ts:534-538). -/
def timeTriggerIntervals : List (String × Int) :=
  [("time_24h", 24 * 60 * 60), ("time_1h", 60 * 60), ("time_15m", 15 * 60)]

/-- Time-trigger materialization (ingestion.ts:533-552): one trigger per
interval whose fire time is still in the future. -/
def addTimeTriggers (eid : Nat) (eventTime now : Int) :
    List (String × Int) → IngestSt × ExtractCounters → IngestSt × ExtractCounters
  | [], acc => acc
  | (ty, offset) :: rest, (σ, k) =>
    let triggerTime := eventTime - offset
    if now < triggerTime then
      let r := insertTriggerOp ⟨eid, ty, isoStringModel triggerTime, false⟩ σ
      let k2 := if r.2 then { k with triggersCreated := k.triggersCreated + 1 } else k
      addTimeTriggers eid eventTime now rest (r.1, k2)
    else addTimeTriggers eid eventTime now rest (σ, k)

/-- The fixed interest vocabulary for keyword triggers (ingestion.ts:567). -/
def interestKeywords : List String :=
  ["travel", "flight", "hotel", "buy", "gift", "birthday", "meeting", "deadline",
   "dinner", "lunch", "coffee"]

/-- Keyword-trigger materialization (ingestion.ts:566-577). -/
def addKeywordTriggers (eid : Nat) :
    List String → IngestSt × ExtractCounters → IngestSt × ExtractCounters
  | [], acc => acc
  | kw :: rest, (σ, k) =>
    let r := insertTriggerOp ⟨eid, "keyword", lowerStr kw, false⟩ σ
    let k2 := if r.2 then { k with triggersCreated := k.triggersCreated + 1 } else k
    addKeywordTriggers eid rest (r.1, k2)

/-- Attach the conflict annotation to the most recently created event
(ingestion.ts:521-526). -/
def attachConflictsToLast (cs : List ConflictInfo) : List CreatedEvent → List CreatedEvent
  | [] => []
  | [x] => [{ x with conflicts := some cs }]
  | x :: rest => x :: attachConflictsToLast cs rest

/-- The event row inserted for a created candidate (ingestion.ts:484-498). -/
def mkStoredEvent (msg : Message) (senderName : Option String) (ev : ExtractedEvent)
    (eventTime : Option Int) (contextUrl : Option String) (eid : Nat) (now : Int) :
    StoredEvent :=
  { id := eid, message_id := some msg.id, event_type := ev.type, title := ev.title,
    description := ev.description, event_time := eventTime, location := ev.location,
    participants := jsonStringifyStrList ev.participants,
    keywords := joinWith "," ev.keywords, confidence := ev.confidence,
    status := initialStatusOf contextUrl, context_url := contextUrl,
    sender_name := senderName, created_at := now }

/-- Conflict annotation for a created event (ingestion.ts:516-529): with a
(truthy) resolved time, query conflicting scheduled events within ±60 minutes
and annotate the most recently created event. -/
def conflictCheckStep (eid : Nat) (eventTime : Option Int) (acc : IngestSt × ExtractCounters) :
    IngestSt × ExtractCounters :=
  match truthyInt eventTime with
  | some t =>
    let rC := callOp CallTag.checkEventConflicts acc.1
    (rC.1,
     if rC.2 then
       let otherConflicts :=
         (checkEventConflictsModel t 60 rC.1.store).filter (fun e => e.id != eid)
       if otherConflicts ≠ [] then
         let cinfos : List ConflictInfo :=
           otherConflicts.map (fun e => ⟨e.id, e.title, e.event_time⟩)
         { acc.2 with createdEvents := attachConflictsToLast cinfos acc.2.createdEvents }
       else acc.2
     else acc.2)
  | none => acc

/-- Time-trigger materialization guarded by the truthy time (ingestion.ts:533). -/
def timeTriggersStep (eid : Nat) (eventTime : Option Int) (now : Int)
    (acc : IngestSt × ExtractCounters) : IngestSt × ExtractCounters :=
  match truthyInt eventTime with
  | some t => addTimeTriggers eid t now timeTriggerIntervals acc
  | none => acc

/-- The `url` trigger for a (truthy) location (ingestion.ts:555-563). -/
def urlTriggerStep (eid : Nat) (loc : Option String) (acc : IngestSt × ExtractCounters) :
    IngestSt × ExtractCounters :=
  match truthyOpt loc with
  | some l =>
    let r := insertTriggerOp ⟨eid, "url", lowerStr l, false⟩ acc.1
    (r.1, if r.2 then { acc.2 with triggersCreated := acc.2.triggersCreated + 1 } else acc.2)
  | none => acc

/-- Keyword triggers for up to three interest-vocabulary keywords
(ingestion.ts:566-577). -/
def keywordTriggersStep (eid : Nat) (kws : List String) (acc : IngestSt × ExtractCounters) :
    IngestSt × ExtractCounters :=
  let importantKeywords :=
    kws.filter (fun kw => interestKeywords.any (fun ik => strContains (lowerStr kw) ik))
  addKeywordTriggers eid (importantKeywords.take 3) acc

/-- The event time of a create candidate (ingestion.ts:375-395): absent
unless the model supplied a truthy time string, which is then parsed and
guarded. -/
def createEventTimeOf (ev : ExtractedEvent) (parseDate : String → Option Int)
    (now : Int) : Option Int :=
  match truthyOpt ev.event_time with
  | none => none
  | some s => parseCreateEventTime (parseDate s) now

/-- The create path for one candidate (ingestion.ts:368-577): dedup check,
time normalization, context-tag resolution, insertion, conflict annotation
and trigger materialization. -/
def processCreate (msg : Message) (senderName : Option String)
    (parseDate : String → Option Int) (now : Int) (ev : ExtractedEvent)
    (σ : IngestSt) (k : ExtractCounters) : IngestSt × ExtractCounters :=
  let rDup := callOp CallTag.findDuplicateEvent σ
  if !rDup.2 then (rDup.1, k)
  else if (findDuplicateEventModel ev.title 48 now rDup.1.store).isSome then (rDup.1, k)
  else
    let eventTime := createEventTimeOf ev parseDate now
    let contextUrl := resolveContextUrl ev
    let rIns := callOp CallTag.insertEvent rDup.1
    if !rIns.2 then (rIns.1, k)
    else
      let eid := rIns.1.nextEventId
      let stored := mkStoredEvent msg senderName ev eventTime contextUrl eid now
      let σ2 := { rIns.1 with store := rIns.1.store ++ [stored], nextEventId := eid + 1 }
      let k2 : ExtractCounters :=
        { k with eventsCreated := k.eventsCreated + 1,
                 createdEvents := k.createdEvents ++ [{
                   id := eid, event_type := ev.type, title := ev.title,
                   description := ev.description, event_time := eventTime,
                   location := ev.location,
                   participants := jsonStringifyStrList ev.participants,
                   keywords := joinWith "," ev.keywords, confidence := ev.confidence,
                   context_url := contextUrl, sender_name := senderName }] }
      keywordTriggersStep eid ev.keywords
        (urlTriggerStep eid ev.location
          (timeTriggersStep eid eventTime now
            (conflictCheckStep eid eventTime (σ2, k2))))

/-- The field updates a CRUD `update` or `merge` candidate builds
(ingestion.ts:301-341). The `merge` branch reads the snapshot event found by
`target_event_id`: the description is appended to the existing one, and the
participant union parses `existing?.sender_name || '[]'` — the expression the
source actually evaluates — falling back to the candidate's own participants
when that value is not valid JSON. -/
def buildUpdateFields (eventAction : String) (tid : Nat) (ev : ExtractedEvent)
    (existingEvents : List StoredEvent) (parseDate : String → Option Int) (now : Int) :
    UpdateFields :=
  if eventAction = "update" then
    { title := truthyOpt (some ev.title),
      description := truthyOpt ev.description,
      location := truthyOpt ev.location,
      event_time :=
        match truthyOpt ev.event_time with
        | none => none
        | some s => parseGuardedEventTime (parseDate s) now,
      keywords := if ev.keywords ≠ [] then some (joinWith "," ev.keywords) else none,
      participants :=
        if ev.participants ≠ [] then some (jsonStringifyStrList ev.participants) else none }
  else
    let existing := existingEvents.find? (fun e => e.id == tid)
    { description :=
        match truthyOpt ev.description with
        | none => none
        | some d =>
          let existingDesc := truthyD (existing.bind (fun e => e.description)) ""
          some (if existingDesc ≠ "" then existingDesc ++ ". " ++ d else d),
      participants :=
        if ev.participants ≠ [] then
          match jsonParseStrList (truthyD (existing.bind (fun e => e.sender_name)) "[]") with
          | some existingParticipants =>
            some (jsonStringifyStrList (List.eraseDups (existingParticipants ++ ev.participants)))
          | none => some (jsonStringifyStrList ev.participants)
        else none }

/-- The CRUD update/merge path for one candidate (ingestion.ts:298-366). -/
def processUpdateMerge (eventAction : String) (tid : Nat) (ev : ExtractedEvent)
    (existingEvents : List StoredEvent) (senderName : Option String)
    (parseDate : String → Option Int) (now : Int)
    (σ : IngestSt) (k : ExtractCounters) : IngestSt × ExtractCounters :=
  let updateFields := buildUpdateFields eventAction tid ev existingEvents parseDate now
  if updateFields.isEmpty then (σ, k)
  else
    let r := callOp CallTag.updateEvent σ
    if r.2 then
      let upd := updateEventModel tid updateFields r.1.store
      let σ2 := { r.1 with store := upd.1 }
      (σ2,
       if upd.2 then
         let urec : CreatedEvent :=
           { id := tid, event_type := ev.type, title := ev.title,
             description := ev.description,
             event_time := truthyInt updateFields.event_time,
             location := ev.location,
             participants := updateFields.participants.getD (jsonStringifyStrList ev.participants),
             keywords := joinWith "," ev.keywords, confidence := ev.confidence,
             context_url := none, sender_name := senderName }
         { k with eventsCreated := k.eventsCreated + 1,
                  createdEvents := k.createdEvents ++ [urec] }
       else k)
    else (r.1, k)

/-- One iteration of the `for (const event of extraction.events)` loop
(ingestion.ts:287-578): skip low confidence, route CRUD update/merge, else
create. Once a collaborator call has thrown, the loop body no longer runs. -/
def processCandidate (msg : Message) (senderName : Option String)
    (existingEvents : List StoredEvent) (parseDate : String → Option Int) (now : Int)
    (acc : IngestSt × ExtractCounters) (ev : ExtractedEvent) : IngestSt × ExtractCounters :=
  let σ := acc.1
  let k := acc.2
  if σ.failed then (σ, k)
  else if ev.confidence < mkRat 65 100 then (σ, k)
  else
    let eventAction := truthyD ev.event_action "create"
    match truthyNat ev.target_event_id with
    | some tid =>
      if eventAction = "update" ∨ eventAction = "merge" then
        processUpdateMerge eventAction tid ev existingEvents senderName parseDate now σ k
      else processCreate msg senderName parseDate now ev σ k
    | none => processCreate msg senderName parseDate now ev σ k

/-- `processMessage` (ingestion.ts:263-587): the `extractEvents` model call,
the candidate loop inside `try`, and the result built from the accumulated
counters — returned identically whether the `try` body completed or the
`catch` swallowed a collaborator error. `extraction` is the reply the
language model would deliver if the call succeeds; `context` is the recent
conversation shown to it (not consumed further by the embedded core). -/
def processMessage (msg : Message) (context : List String) (senderName : Option String)
    (existingEvents : List StoredEvent) (parseDate : String → Option Int)
    (extraction : List ExtractedEvent) (now : Int) (σ : IngestSt) :
    IngestionResult × IngestSt :=
  let _ := context
  let r := callOp CallTag.extractEvents σ
  let out :=
    if r.2 then
      extraction.foldl (processCandidate msg senderName existingEvents parseDate now)
        (r.1, ({} : ExtractCounters))
    else (r.1, ({} : ExtractCounters))
  ({ messageId := msg.id, eventsCreated := out.2.eventsCreated,
     triggersCreated := out.2.triggersCreated, skipped := false,
     events := some out.2.createdEvents },
   out.1)

/-! ## Webhook entry point (`processWebhook`, ingestion.ts:55-261) -/

structure WebhookData where
  keyId : String
  remoteJid : String
  fromMe : Bool
  pushName : Option String := none
  content : Option String := none
  messageTimestamp : Int
deriving DecidableEq, Repr

structure WebhookOptions where
  processOwnMessages : Bool
  skipGroupMessages : Bool
deriving DecidableEq, Repr

def skipResult (mid reason : String) : IngestionResult :=
  { messageId := mid, eventsCreated := 0, triggersCreated := 0, skipped := true,
    skipReason := some reason }

/-- `remoteJid.split('@')[0]`. -/
def jidUser (jid : String) : String := (splitOnChar '@' jid).headD ""

/-- Insert the raw message row (ingestion.ts:94). -/
def insertMessageOp (m : Message) (σ : IngestSt) : IngestSt :=
  let r := callOp CallTag.insertMessage σ
  if r.2 then { r.1 with messages := r.1.messages ++ [m] } else r.1

/-- Update the contact row (ingestion.ts:97-103); the contact table itself is
outside the verified state, only the call is tracked. -/
def upsertContactOp (σ : IngestSt) : IngestSt := (callOp CallTag.upsertContact σ).1

/-- Modelled from the spec: `getRecentMessages(chatId, n)` — the latest `n`
stored messages of the conversation. -/
def getRecentMessagesOp (chatId : String) (n : Nat) (σ : IngestSt) :
    IngestSt × List Message :=
  let r := callOp CallTag.getRecentMessages σ
  (r.1, if r.2 then ((r.1.messages.filter (fun m => m.chat_id == chatId)).reverse).take n else [])

/-- `getActiveEvents(20)` as a tracked call. -/
def getActiveEventsOp (n : Nat) (σ : IngestSt) : IngestSt × List StoredEvent :=
  let r := callOp CallTag.getActiveEvents σ
  (r.1, if r.2 then getActiveEventsModel r.1.store n else [])

/-- STEP 1 routing and STEP 2 extraction of `processWebhook`
(ingestion.ts:117-260), entered with the state after the `detectAction` call:
a thrown `detectAction` or step-1 store call propagates (`none`), an action
result or pending action is returned as-is, and otherwise control falls
through to `processMessage`. -/
def webhookActionPhase (msg : Message) (context : List String) (senderName : Option String)
    (det : DetectedAction) (extraction : List ExtractedEvent)
    (parseDate : String → Option Int) (now : Int) (activeEvents : List StoredEvent)
    (σ5 : IngestSt) : Option IngestionResult × IngestSt :=
  if σ5.failed then (none, σ5)
  else
    match handleAction msg det activeEvents parseDate now σ5 with
    | (some res, σ6) => if σ6.failed then (none, σ6) else (some res, σ6)
    | (none, σ6) =>
      if σ6.failed then (none, σ6)
      else
        let r := processMessage msg context senderName activeEvents parseDate
          extraction now σ6
        (some r.1, r.2)

/-- `processWebhook` (ingestion.ts:55-261). `shouldSkipMessage` is the
trivial-noise pre-filter (`classify` in spec §6), `det` the `detectAction`
reply, `extraction` the `extractEvents` reply and `parseDate` the platform
date parser. A `none` result models an exception propagating to the caller:
every failure outside `processMessage`'s `try` block is uncaught. -/
def processWebhook (wh : WebhookData) (opts : WebhookOptions)
    (shouldSkipMessage : String → Bool) (det : DetectedAction)
    (extraction : List ExtractedEvent) (parseDate : String → Option Int)
    (now : Int) (σ0 : IngestSt) : Option IngestionResult × IngestSt :=
  match wh.content with
  | none => (some (skipResult wh.keyId "no_content"), σ0)
  | some content =>
    if wh.fromMe && !opts.processOwnMessages then
      (some (skipResult wh.keyId "own_message"), σ0)
    else if strContains wh.remoteJid "@g.us" && opts.skipGroupMessages then
      (some (skipResult wh.keyId "group_message"), σ0)
    else
      let senderName := truthyOpt wh.pushName
      let msg : Message :=
        { id := wh.keyId, chat_id := wh.remoteJid,
          sender := if wh.fromMe then "self" else jidUser wh.remoteJid,
          content := content, timestamp := wh.messageTimestamp }
      let σ1 := insertMessageOp msg σ0
      let σ2 := upsertContactOp σ1
      if σ2.failed then (none, σ2)
      else if shouldSkipMessage content then (some (skipResult msg.id "trivial_message"), σ2)
      else
        let rRecent := getRecentMessagesOp msg.chat_id 5 σ2
        let context := (rRecent.2.filter (fun m => m.id != msg.id)).map (fun m => m.content)
        let rActive := getActiveEventsOp 20 rRecent.1
        let σ5 := (callOp CallTag.detectAction rActive.1).1
        webhookActionPhase msg context senderName det extraction parseDate now rActive.2 σ5

/-! ## Concrete fixtures used by the example runs -/

/-- An active stored event (the most recent active event in the fixtures). -/
def fxDinner : StoredEvent :=
  { id := 1, event_type := "meeting", title := "Dinner", keywords := "dinner", created_at := 900 }

/-- A fresh pipeline state holding `fxDinner`, with a never-failing oracle. -/
def fxState : IngestSt :=
  { store := [fxDinner], messages := [], triggers := [], nextEventId := 2,
    oracle := fun _ => false, callIdx := 0, trace := [], failed := false }

def fxWebhook : WebhookData :=
  { keyId := "m1", remoteJid := "123@s.whatsapp.net", fromMe := false,
    pushName := some "Rahul", content := some "cancel the dinner", messageTimestamp := 1000 }

def fxOptions : WebhookOptions := { processOwnMessages := false, skipGroupMessages := true }

/-- A detected `cancel` action at the given confidence. -/
def fxCancel (q : ℚ) : DetectedAction := { isAction := true, action := "cancel", confidence := q }

/-- A detected `modify` action carrying no new field values. -/
def fxModifyEmpty : DetectedAction :=
  { isAction := true, action := "modify", confidence := mkRat 9 10 }

def fxMsg : Message := { id := "m2", chat_id := "c", sender := "s", content := "x", timestamp := 1000 }

/-- Two plain create candidates for the failure-injection run. -/
def fxCandA : ExtractedEvent := { type := "meeting", title := "Team sync", confidence := mkRat 9 10 }

def fxCandB : ExtractedEvent := { type := "meeting", title := "Board call", confidence := mkRat 8 10 }

/-- A state whose oracle makes the fifth collaborator call (the second
candidate's `insertEvent`) throw. -/
def fxFailState : IngestSt :=
  { store := [], messages := [], triggers := [], nextEventId := 1,
    oracle := fun n => n == 4, callIdx := 0, trace := [], failed := false }

/-- A detected `modify` action proposing a new title. -/
def fxModifyTitle : DetectedAction :=
  { isAction := true, action := "modify", confidence := mkRat 9 10,
    newTitle := some "Dinner at 8" }

/-- A state whose oracle makes the very first collaborator call throw. -/
def fxExtractFailState : IngestSt :=
  { store := [], messages := [], triggers := [], nextEventId := 1,
    oracle := fun n => n == 0, callIdx := 0, trace := [], failed := false }

/-- A fresh state with an empty store and a never-failing oracle. -/
def fxEmptyState : IngestSt :=
  { store := [], messages := [], triggers := [], nextEventId := 1,
    oracle := fun _ => false, callIdx := 0, trace := [], failed := false }

/-- Merge-target fixture: stored participants `["Alice"]`, no sender name. -/
def fxMergeTarget : StoredEvent :=
  { id := 1, event_type := "meeting", title := "Dinner plan", description := some "Old plan",
    participants := "[\"Alice\"]", keywords := "dinner", created_at := 0 }

/-- A merge candidate adding participant `Bob` and a new description detail. -/
def fxMergeCand : ExtractedEvent :=
  { type := "meeting", title := "Dinner update", description := some "New detail",
    participants := ["Bob"], confidence := mkRat 9 10,
    event_action := some "merge", target_event_id := some 1 }

def fxMergeState : IngestSt :=
  { store := [fxMergeTarget], messages := [], triggers := [], nextEventId := 2,
    oracle := fun _ => false, callIdx := 0, trace := [], failed := false }

/-- Event whose title contains the field delimiter. -/
def fxPipeEvent : CompressibleEvent :=
  { id := 1, title := "a|b", event_type := "meeting", status := "discovered", keywords := "k" }

/-- A pipe-free event with all optional fields absent. -/
def fxPlainEvent : CompressibleEvent :=
  { id := 7, title := "Standup", event_type := "meeting", status := "discovered", keywords := "sync" }

/-- Events at Unix times 0 and 3600: the zero time is falsy in JS. -/
def fxEpochEvent : CompressibleEvent :=
  { id := 1, title := "A", event_type := "other", status := "discovered", keywords := "",
    event_time := some 0 }

def fxHourEvent : CompressibleEvent :=
  { id := 2, title := "B", event_type := "other", status := "discovered", keywords := "",
    event_time := some 3600 }

/-- An event pair with nonzero times exactly one hour apart. -/
def fxTimeA : CompressibleEvent :=
  { id := 3, title := "A", event_type := "other", status := "discovered", keywords := "",
    event_time := some 7200 }

def fxTimeB : CompressibleEvent :=
  { id := 4, title := "B", event_type := "other", status := "discovered", keywords := "",
    event_time := some 10800 }

/-- An event 3601 seconds after `fxTimeA`. -/
def fxTimeC : CompressibleEvent :=
  { id := 5, title := "C", event_type := "other", status := "discovered", keywords := "",
    event_time := some 10801 }

/-- A stored event found by the matcher's location search for `netflix`. -/
def fxNetflixEvent : StoredEvent :=
  { id := 9, event_type := "subscription", title := "Cancel Netflix",
    location := some "netflix", keywords := "netflix,subscription", created_at := 50 }

/-- A relevance validation declaring nothing relevant at confidence 7/10. -/
def fxEmptyValidation : List StoredEvent → RelevanceValidation :=
  fun _ => { relevant := [], confidence := mkRat 7 10 }

/-- A candidate that resolves the `netflix` service tag. -/
def fxNetflixCand : ExtractedEvent :=
  { type := "reminder", title := "Pay Netflix bill", keywords := ["netflix"],
    confidence := mkRat 8 10 }

/-- A candidate resolving no context tag, with a (future) time. -/
def fxPlainCand : ExtractedEvent :=
  { type := "meeting", title := "Team sync", keywords := ["standup"],
    event_time := some "2024-01-15T08:00:00Z", confidence := mkRat 8 10 }

/-! ## Helper lemmas: strings, splitting and joining -/

theorem strData_append (s t : String) : (s ++ t).data = s.data ++ t.data := by
  cases s; cases t; rfl

theorem splitChars_not_mem (sep : Char) (l : List Char) (h : sep ∉ l) :
    splitChars sep l = [l] := by
  induction l with
  | nil => rfl
  | cons c cs ih =>
    have hc : ¬ c = sep := by rintro rfl; exact h (List.mem_cons_self _ _)
    have h2 : sep ∉ cs := fun hm => h (List.mem_cons_of_mem _ hm)
    simp [splitChars, ih h2, hc]

theorem splitChars_ne_nil (sep : Char) (l : List Char) : splitChars sep l ≠ [] := by
  cases l with
  | nil => simp [splitChars]
  | cons c cs =>
    rw [splitChars]
    cases hs : splitChars sep cs with
    | nil => simp
    | cons h t => dsimp only; split <;> simp

theorem splitChars_append (sep : Char) (xs ys : List Char) (h : sep ∉ xs) :
    splitChars sep (xs ++ sep :: ys) = xs :: splitChars sep ys := by
  induction xs with
  | nil =>
    rw [List.nil_append, splitChars]
    cases hs : splitChars sep ys with
    | nil => exact absurd hs (splitChars_ne_nil sep ys)
    | cons a t => simp
  | cons c cs ih =>
    have hc : ¬ c = sep := by rintro rfl; exact h (List.mem_cons_self _ _)
    have h2 : sep ∉ cs := fun hm => h (List.mem_cons_of_mem _ hm)
    rw [List.cons_append, splitChars, ih h2]
    simp [hc]

theorem joinWith_cons_data (sep : Char) (p q : String) (rest : List String) :
    (joinWith (String.mk [sep]) (p :: q :: rest)).data =
      p.data ++ sep :: (joinWith (String.mk [sep]) (q :: rest)).data := by
  show (p ++ String.mk [sep] ++ joinWith (String.mk [sep]) (q :: rest)).data = _
  rw [strData_append, strData_append]
  simp

theorem splitChars_joinWith (sep : Char) (parts : List String) (hne : parts ≠ [])
    (hp : ∀ p ∈ parts, sep ∉ p.data) :
    splitChars sep (joinWith (String.mk [sep]) parts).data = parts.map String.data := by
  induction parts with
  | nil => exact absurd rfl hne
  | cons p rest ih =>
    cases rest with
    | nil => simp [joinWith, splitChars_not_mem sep p.data (hp p (by simp))]
    | cons q rest2 =>
      rw [joinWith_cons_data, splitChars_append sep _ _ (hp p (by simp))]
      rw [ih (by simp) (fun x hx => hp x (by simp [hx]))]
      rfl

/-! ## Helper lemmas: the week-forward loop -/

theorem pushForwardWeeks_spec (t now : Int) (h : t < now) :
    now ≤ pushForwardWeeks t now ∧ pushForwardWeeks t now - weekSec < now ∧
      weekSec ∣ (pushForwardWeeks t now - t) := by
  induction t, now using pushForwardWeeks.induct with
  | case1 t now hlt ih =>
    rw [pushForwardWeeks, if_pos hlt]
    by_cases h2 : t + weekSec < now
    · obtain ⟨a, b, c⟩ := ih h2
      refine ⟨a, b, ?_⟩
      obtain ⟨k, hk⟩ := c
      exact ⟨k + 1, by linarith⟩
    · rw [pushForwardWeeks, if_neg h2]
      refine ⟨by omega, ?_, ⟨1, by ring⟩⟩
      simp only [weekSec] at *
      omega
  | case2 t now hlt => omega

theorem pushForwardWeeks_eq_of (t now r : Int) (h : t < now) (h1 : now ≤ r)
    (h2 : r - weekSec < now) (h3 : weekSec ∣ (r - t)) : pushForwardWeeks t now = r := by
  obtain ⟨a, b, c⟩ := pushForwardWeeks_spec t now h
  obtain ⟨k1, hk1⟩ := c
  obtain ⟨k2, hk2⟩ := h3
  have hw : weekSec = 604800 := by norm_num [weekSec]
  rw [hw] at hk1 hk2 b h2
  omega

/-! ## Helper lemmas: collaborator-call instrumentation -/

theorem callOp_store (tag : CallTag) (σ : IngestSt) : ((callOp tag σ).1).store = σ.store := by
  rw [callOp]; split <;> rfl

theorem callOp_nofail (tag : CallTag) (σ : IngestSt) (h1 : σ.failed = false)
    (h2 : σ.oracle σ.callIdx = false) :
    callOp tag σ =
      ({ σ with callIdx := σ.callIdx + 1, trace := σ.trace ++ [tag], failed := false }, true) := by
  rw [callOp, if_neg (by simp [h1])]
  simp [h2]

theorem callOp_trace_of_live (tag : CallTag) (σ : IngestSt) (h1 : σ.failed = false) :
    ((callOp tag σ).1).trace = σ.trace ++ [tag] := by
  rw [callOp, if_neg (by simp [h1])]

/-- The invariant every pipeline step preserves: the oracle is untouched, the
trace only grows, and with a never-failing oracle a live state stays live. -/
def StepOk (σ σ2 : IngestSt) : Prop :=
  σ2.oracle = σ.oracle ∧
  (σ.failed = false → (∀ n, σ.oracle n = false) → σ2.failed = false) ∧
  ∃ t, σ2.trace = σ.trace ++ t

theorem StepOk.refl (σ : IngestSt) : StepOk σ σ := ⟨rfl, fun h _ => h, [], by simp⟩

theorem StepOk.trans {a b c : IngestSt} (h1 : StepOk a b) (h2 : StepOk b c) : StepOk a c := by
  obtain ⟨ho1, hf1, t1, ht1⟩ := h1
  obtain ⟨ho2, hf2, t2, ht2⟩ := h2
  refine ⟨ho2.trans ho1, fun hf hon => hf2 (hf1 hf hon) (by rw [ho1]; exact hon), t1 ++ t2, ?_⟩
  rw [ht2, ht1, List.append_assoc]

theorem stepOk_of_eq {σ1 σ2 : IngestSt} (ho : σ2.oracle = σ1.oracle)
    (hf : σ2.failed = σ1.failed) (ht : σ2.trace = σ1.trace) : StepOk σ1 σ2 :=
  ⟨ho, fun h _ => hf.trans h, [], by simp [ht]⟩

theorem stepOk_callOp (tag : CallTag) (σ : IngestSt) : StepOk σ (callOp tag σ).1 := by
  rw [callOp]
  split
  · exact StepOk.refl σ
  · exact ⟨rfl, fun _ hon => hon σ.callIdx, [tag], rfl⟩

theorem stepOk_insertTriggerOp (tr : TriggerRec) (σ : IngestSt) :
    StepOk σ (insertTriggerOp tr σ).1 := by
  rw [insertTriggerOp]
  dsimp only
  split
  · exact (stepOk_callOp _ σ).trans (stepOk_of_eq rfl rfl rfl)
  · exact stepOk_callOp _ σ

theorem stepOk_addTimeTriggers (eid : Nat) (et now : Int) :
    ∀ (l : List (String × Int)) (acc : IngestSt × ExtractCounters),
      StepOk acc.1 (addTimeTriggers eid et now l acc).1 := by
  intro l
  induction l with
  | nil => intro acc; exact StepOk.refl _
  | cons p rest ih =>
    intro acc
    obtain ⟨σ, k⟩ := acc
    obtain ⟨ty, offset⟩ := p
    rw [addTimeTriggers]
    dsimp only
    split
    · exact (stepOk_insertTriggerOp _ σ).trans (ih _)
    · exact ih (σ, k)

theorem stepOk_addKeywordTriggers (eid : Nat) :
    ∀ (l : List String) (acc : IngestSt × ExtractCounters),
      StepOk acc.1 (addKeywordTriggers eid l acc).1 := by
  intro l
  induction l with
  | nil => intro acc; exact StepOk.refl _
  | cons kw rest ih =>
    intro acc
    obtain ⟨σ, k⟩ := acc
    rw [addKeywordTriggers]
    exact (stepOk_insertTriggerOp _ σ).trans (ih _)

theorem stepOk_conflictCheckStep (eid : Nat) (eventTime : Option Int)
    (acc : IngestSt × ExtractCounters) : StepOk acc.1 (conflictCheckStep eid eventTime acc).1 := by
  rw [conflictCheckStep]
  split
  · exact stepOk_callOp _ _
  · exact StepOk.refl _

theorem stepOk_timeTriggersStep (eid : Nat) (eventTime : Option Int) (now : Int)
    (acc : IngestSt × ExtractCounters) : StepOk acc.1 (timeTriggersStep eid eventTime now acc).1 := by
  rw [timeTriggersStep]
  split
  · exact stepOk_addTimeTriggers _ _ _ _ _
  · exact StepOk.refl _

theorem stepOk_urlTriggerStep (eid : Nat) (loc : Option String)
    (acc : IngestSt × ExtractCounters) : StepOk acc.1 (urlTriggerStep eid loc acc).1 := by
  rw [urlTriggerStep]
  split
  · exact stepOk_insertTriggerOp _ _
  · exact StepOk.refl _

theorem stepOk_keywordTriggersStep (eid : Nat) (kws : List String)
    (acc : IngestSt × ExtractCounters) : StepOk acc.1 (keywordTriggersStep eid kws acc).1 :=
  stepOk_addKeywordTriggers _ _ _

theorem stepOk_processCreate (msg : Message) (senderName : Option String)
    (parseDate : String → Option Int) (now : Int) (ev : ExtractedEvent)
    (σ : IngestSt) (k : ExtractCounters) :
    StepOk σ (processCreate msg senderName parseDate now ev σ k).1 := by
  rw [processCreate]
  split
  · exact stepOk_callOp _ σ
  split
  · exact stepOk_callOp _ σ
  · dsimp only
    split
    · exact (stepOk_callOp _ σ).trans (stepOk_callOp _ _)
    · refine StepOk.trans ?_ (stepOk_keywordTriggersStep _ _ _)
      refine StepOk.trans ?_ (stepOk_urlTriggerStep _ _ _)
      refine StepOk.trans ?_ (stepOk_timeTriggersStep _ _ _ _)
      refine StepOk.trans ?_ (stepOk_conflictCheckStep _ _ _)
      exact ((stepOk_callOp _ σ).trans (stepOk_callOp _ _)).trans (stepOk_of_eq rfl rfl rfl)

theorem stepOk_processUpdateMerge (eventAction : String) (tid : Nat) (ev : ExtractedEvent)
    (existingEvents : List StoredEvent) (senderName : Option String)
    (parseDate : String → Option Int) (now : Int) (σ : IngestSt) (k : ExtractCounters) :
    StepOk σ (processUpdateMerge eventAction tid ev existingEvents senderName parseDate now σ k).1 := by
  rw [processUpdateMerge]
  dsimp only
  split
  · exact StepOk.refl _
  · split
    · exact (stepOk_callOp _ σ).trans (stepOk_of_eq rfl rfl rfl)
    · exact stepOk_callOp _ σ

theorem stepOk_processCandidate (msg : Message) (senderName : Option String)
    (existingEvents : List StoredEvent) (parseDate : String → Option Int) (now : Int)
    (acc : IngestSt × ExtractCounters) (ev : ExtractedEvent) :
    StepOk acc.1 (processCandidate msg senderName existingEvents parseDate now acc ev).1 := by
  rw [processCandidate]
  split
  · exact StepOk.refl _
  split
  · exact StepOk.refl _
  · split
    · dsimp only
      split
      · exact stepOk_processUpdateMerge _ _ _ _ _ _ _ _ _
      · exact stepOk_processCreate _ _ _ _ _ _ _
    · exact stepOk_processCreate _ _ _ _ _ _ _

theorem stepOk_foldl {α : Type} (f : IngestSt × ExtractCounters → α → IngestSt × ExtractCounters)
    (hf : ∀ acc a, StepOk acc.1 (f acc a).1) :
    ∀ (l : List α) (acc : IngestSt × ExtractCounters), StepOk acc.1 (l.foldl f acc).1 := by
  intro l
  induction l with
  | nil => intro acc; exact StepOk.refl _
  | cons a l ih => intro acc; exact (hf acc a).trans (ih (f acc a))

theorem stepOk_processMessage (msg : Message) (context : List String)
    (senderName : Option String) (existingEvents : List StoredEvent)
    (parseDate : String → Option Int) (extraction : List ExtractedEvent) (now : Int)
    (σ : IngestSt) :
    StepOk σ (processMessage msg context senderName existingEvents parseDate extraction now σ).2 := by
  rw [processMessage]
  dsimp only
  split
  · exact (stepOk_callOp _ σ).trans
      (stepOk_foldl _ (fun acc a => stepOk_processCandidate _ _ _ _ _ acc a) _ _)
  · exact stepOk_callOp _ σ

theorem stepOk_actionSwitch (msg : Message) (det : DetectedAction) (te : StoredEvent)
    (parseDate : String → Option Int) (now : Int) (σ : IngestSt) :
    StepOk σ (actionSwitch msg det te parseDate now σ).2 := by
  rw [actionSwitch]
  dsimp only
  repeat' split
  all_goals
    first
      | exact (stepOk_callOp _ σ).trans (stepOk_of_eq rfl rfl rfl)
      | exact StepOk.refl _

theorem stepOk_handleAction (msg : Message) (det : DetectedAction)
    (activeEvents : List StoredEvent) (parseDate : String → Option Int) (now : Int)
    (σ : IngestSt) :
    StepOk σ (handleAction msg det activeEvents parseDate now σ).2 := by
  rw [handleAction]
  split
  · split
    · dsimp only
      repeat' split
      all_goals
        first
          | exact (stepOk_callOp _ σ).trans (stepOk_actionSwitch _ _ _ _ _ _)
          | exact stepOk_callOp _ σ
    · dsimp only
      repeat' split
      all_goals
        first
          | exact stepOk_actionSwitch _ _ _ _ _ _
          | exact StepOk.refl σ
  · exact StepOk.refl σ

theorem stepOk_insertMessageOp (m : Message) (σ : IngestSt) :
    StepOk σ (insertMessageOp m σ) := by
  rw [insertMessageOp]
  dsimp only
  split
  · exact (stepOk_callOp _ σ).trans (stepOk_of_eq rfl rfl rfl)
  · exact stepOk_callOp _ σ

theorem stepOk_upsertContactOp (σ : IngestSt) : StepOk σ (upsertContactOp σ) :=
  stepOk_callOp _ σ

theorem stepOk_getRecentMessagesOp (chatId : String) (n : Nat) (σ : IngestSt) :
    StepOk σ (getRecentMessagesOp chatId n σ).1 :=
  stepOk_callOp _ σ

theorem stepOk_getActiveEventsOp (n : Nat) (σ : IngestSt) :
    StepOk σ (getActiveEventsOp n σ).1 :=
  stepOk_callOp _ σ

theorem insertMessageOp_store (m : Message) (σ : IngestSt) :
    (insertMessageOp m σ).store = σ.store := by
  rw [insertMessageOp]
  dsimp only
  split
  · exact callOp_store _ σ
  · exact callOp_store _ σ

theorem insertMessageOp_trace_of_live (m : Message) (σ : IngestSt) (h : σ.failed = false) :
    (insertMessageOp m σ).trace = σ.trace ++ [CallTag.insertMessage] := by
  rw [insertMessageOp]
  dsimp only
  split
  · exact callOp_trace_of_live _ σ h
  · exact callOp_trace_of_live _ σ h

theorem upsertContactOp_store (σ : IngestSt) : (upsertContactOp σ).store = σ.store :=
  callOp_store _ σ

theorem getRecentMessagesOp_store (chatId : String) (n : Nat) (σ : IngestSt) :
    ((getRecentMessagesOp chatId n σ).1).store = σ.store :=
  callOp_store _ σ

theorem getActiveEventsOp_store (n : Nat) (σ : IngestSt) :
    ((getActiveEventsOp n σ).1).store = σ.store :=
  callOp_store _ σ

/-- With a live state, `processMessage`'s trace records the `extractEvents`
model call. -/
theorem processMessage_trace_mem (msg : Message) (context : List String)
    (senderName : Option String) (existingEvents : List StoredEvent)
    (parseDate : String → Option Int) (extraction : List ExtractedEvent) (now : Int)
    (σ : IngestSt) (h : σ.failed = false) :
    CallTag.extractEvents ∈
      (processMessage msg context senderName existingEvents parseDate extraction now σ).2.trace := by
  rw [processMessage]
  dsimp only
  have hc : ((callOp CallTag.extractEvents σ).1).trace = σ.trace ++ [CallTag.extractEvents] :=
    callOp_trace_of_live _ σ h
  split
  · obtain ⟨-, -, t, ht⟩ :=
      stepOk_foldl _ (fun acc a => stepOk_processCandidate msg senderName existingEvents
        parseDate now acc a) extraction ((callOp CallTag.extractEvents σ).1, {})
    rw [ht]
    dsimp only
    rw [hc]
    simp
  · rw [hc]
    simp

/-- `processMessage` never reports an action or a pending action, and is
never marked skipped. -/
theorem processMessage_result_shape (msg : Message) (context : List String)
    (senderName : Option String) (existingEvents : List StoredEvent)
    (parseDate : String → Option Int) (extraction : List ExtractedEvent) (now : Int)
    (σ : IngestSt) :
    (processMessage msg context senderName existingEvents parseDate extraction now σ).1.actionPerformed = none ∧
    (processMessage msg context senderName existingEvents parseDate extraction now σ).1.pendingAction = none ∧
    (processMessage msg context senderName existingEvents parseDate extraction now σ).1.skipped = false := by
  rw [processMessage]
  exact ⟨rfl, rfl, rfl⟩

theorem callOp_fail (tag : CallTag) (σ : IngestSt) (h1 : σ.failed = false)
    (h2 : σ.oracle σ.callIdx = true) :
    callOp tag σ =
      ({ σ with callIdx := σ.callIdx + 1, trace := σ.trace ++ [tag], failed := true }, false) := by
  rw [callOp, if_neg (by simp [h1])]
  simp [h2]

theorem truthyD_of_none (o : Option String) (d : String) (h : truthyOpt o = none) :
    truthyD o d = d := by
  cases o with
  | none => rfl
  | some s =>
    rw [truthyOpt] at h
    rw [truthyD]
    split
    · rfl
    · simp_all

/-! ## Claim C4 — time normalization (amended) -/

/-- C4 (amended): in the create path a failed parse yields an absent time; a
parsed time at most one hour in the past (or in the future) is stored
unchanged; a parsed time more than 3600 s before `now` is advanced in steps
of exactly one week (`weekSec = 7*24*3600`) until no longer before `now` —
the result is not before `now`, lies within one week of it, and is congruent
to the parsed time modulo one week. The `modify` (and CRUD-update) path
applies the same normalization to positive parsed times, but additionally
discards a non-positive parsed time as absent. -/
theorem event_time_normalization :
    (∀ now : Int, parseCreateEventTime none now = none) ∧
    (∀ t now : Int, now - 3600 ≤ t → parseCreateEventTime (some t) now = some t) ∧
    (∀ t now : Int, t < now - 3600 →
      ∃ r, parseCreateEventTime (some t) now = some r ∧ now ≤ r ∧ r - weekSec < now ∧
        weekSec ∣ (r - t)) ∧
    (∀ now : Int, parseGuardedEventTime none now = none) ∧
    (∀ t now : Int, 0 < t →
      parseGuardedEventTime (some t) now = parseCreateEventTime (some t) now) := by
  refine ⟨fun now => rfl, fun t now h => ?_, fun t now h => ?_, fun now => rfl, fun t now h => ?_⟩
  · rw [parseCreateEventTime, fixPastTime, if_neg (by omega)]
  · obtain ⟨h1, h2, h3⟩ := pushForwardWeeks_spec t now (by omega)
    exact ⟨pushForwardWeeks t now,
      by rw [parseCreateEventTime, fixPastTime, if_pos h], h1, h2, h3⟩
  · rw [parseGuardedEventTime, parseCreateEventTime, if_pos h]

/-- Witness for C4's amended statement at concrete inputs. -/
theorem event_time_normalization_witness :
    parseCreateEventTime (some 500) 1000 = some 500 ∧
    (∃ r, parseCreateEventTime (some (-3700)) 1000 = some r ∧ (1000 : Int) ≤ r ∧
      r - weekSec < 1000 ∧ weekSec ∣ (r - (-3700))) ∧
    parseGuardedEventTime (some 500) 1000 = parseCreateEventTime (some 500) 1000 :=
  ⟨event_time_normalization.2.1 500 1000 (by norm_num),
   event_time_normalization.2.2.1 (-3700) 1000 (by norm_num),
   event_time_normalization.2.2.2.2 500 1000 (by norm_num)⟩

/-- C4 counterexample: the claim says the same normalization applies to the
time a `modify` action proposes, but the modify path has an extra
`parsedTime > 0` guard (ingestion.ts:186) that the create path
(ingestion.ts:376-395) lacks: a date parsing to the non-positive Unix time
-3700 (with `now = 1000`) is pushed forward to 601100 by the create path but
treated as absent by the modify path. -/
theorem event_time_modify_guard_cex :
    parseCreateEventTime (some (-3700)) 1000 = some 601100 ∧
    parseGuardedEventTime (some (-3700)) 1000 = none ∧
    parseCreateEventTime (some (-3700)) 1000 ≠ parseGuardedEventTime (some (-3700)) 1000 := by
  have h1 : pushForwardWeeks (-3700) 1000 = 601100 :=
    pushForwardWeeks_eq_of (-3700) 1000 601100 (by norm_num) (by norm_num)
      (by norm_num [weekSec]) ⟨1, by norm_num [weekSec]⟩
  have h2 : parseCreateEventTime (some (-3700)) 1000 = some 601100 := by
    rw [parseCreateEventTime, fixPastTime, if_pos (by norm_num), h1]
  have h3 : parseGuardedEventTime (some (-3700)) 1000 = none := by
    rw [parseGuardedEventTime, if_neg (by norm_num)]
  exact ⟨h2, h3, by rw [h2, h3]; simp⟩

/-! ## Claim C8 — time-conflict edges (amended) -/

/-- C8 (amended): for a pair of events with resolved times, a `conflicts`
edge is produced exactly when both times are nonzero (a zero Unix time is
falsy in the JS `event_time &&` test) and the absolute difference is greater
than 0 and at most 3600 seconds. -/
theorem conflicts_edge_iff (e1 e2 : CompressibleEvent) (t1 t2 : Int)
    (h1 : e1.event_time = some t1) (h2 : e2.event_time = some t2) :
    EventEdge.mk e1.id e2.id EdgeRelation.conflicts ∈ detectEventEdges [e1, e2] ↔
      (t1 ≠ 0 ∧ t2 ≠ 0 ∧ 0 < (t1 - t2).natAbs ∧ (t1 - t2).natAbs ≤ 3600) := by
  have hlist : detectEventEdges [e1, e2] = pairEdges e1 e2 := by
    rw [detectEventEdges, if_neg (by simp)]
    simp [edgesAll, edgesFrom]
  rw [hlist, pairEdges]
  dsimp only
  rw [h1, h2]
  dsimp only
  rw [List.mem_append]
  constructor
  · rintro (hk | ht)
    · split_ifs at hk <;> simp_all
    · split_ifs at ht with g1 g2
      · exact ⟨g1.1, g1.2, g2.2, g2.1⟩
      · simp at ht
      · simp at ht
  · rintro ⟨a, b, c, d⟩
    refine Or.inr ?_
    rw [if_pos ⟨a, b⟩, if_pos ⟨d, c⟩]
    simp

/-- Witness for C8: times 7200 and 10800 (difference exactly 3600) produce a
`conflicts` edge; times 7200 and 10801 (difference 3601) do not. -/
theorem conflicts_edge_iff_witness :
    EventEdge.mk 3 4 EdgeRelation.conflicts ∈ detectEventEdges [fxTimeA, fxTimeB] ∧
    EventEdge.mk 3 5 EdgeRelation.conflicts ∉ detectEventEdges [fxTimeA, fxTimeC] :=
  ⟨(conflicts_edge_iff fxTimeA fxTimeB 7200 10800 rfl rfl).2 (by decide),
   fun hm => absurd ((conflicts_edge_iff fxTimeA fxTimeC 7200 10801 rfl rfl).1 hm)
     (by decide)⟩

/-- C8 counterexample: the claim as stated asks for a `conflicts` edge
whenever two resolved times differ by at most 3600 and more than 0, but a
resolved time of exactly 0 (the Unix epoch) is falsy in the JS truthiness
test, so the pair (0, 3600) — difference exactly 3600 — produces no edge. -/
theorem conflicts_edge_zero_time_cex :
    fxEpochEvent.event_time = some 0 ∧ fxHourEvent.event_time = some 3600 ∧
    ((0 : Int) - 3600).natAbs = 3600 ∧
    EventEdge.mk fxEpochEvent.id fxHourEvent.id EdgeRelation.conflicts ∉
      detectEventEdges [fxEpochEvent, fxHourEvent] := by
  decide

/-! ## Claim C9 — empty relevance subset forwards the confidence -/

/-- C9: when the candidate set passed to relevance validation is non-empty
but validation returns an empty relevant-index subset, `matchContext` returns
`matched = false` with no events while forwarding the validation's confidence
value (matcher.ts:122-125). -/
theorem matchContext_forwards_confidence (keywords : List String) (hotWindowDays : Nat)
    (now : Int) (store : List StoredEvent) (validate : List StoredEvent → RelevanceValidation)
    (h1 : keywords ≠ [])
    (h2 : matchCandidates keywords hotWindowDays now store ≠ [])
    (h3 : (validate (matchCandidates keywords hotWindowDays now store)).relevant = []) :
    matchContext keywords hotWindowDays now store validate =
      { matched := false, events := [],
        confidence := (validate (matchCandidates keywords hotWindowDays now store)).confidence } := by
  rw [matchContext, if_neg h1]
  dsimp only
  rw [if_neg h2, if_pos h3]

/-- Witness for C9: one candidate found via the `netflix` location search,
validation declares none relevant at confidence 7/10, and the result forwards
exactly that confidence (not 0). -/
theorem matchContext_forwards_confidence_witness :
    matchContext ["netflix"] 90 100 [fxNetflixEvent] fxEmptyValidation =
      { matched := false, events := [], confidence := mkRat 7 10 } ∧
    (mkRat 7 10 : ℚ) ≠ 0 := by
  refine ⟨?_, by norm_num⟩
  rw [matchContext_forwards_confidence ["netflix"] 90 100 [fxNetflixEvent] fxEmptyValidation
    (by decide) (by decide) (by decide)]
  rfl

/-! ## Claim C7 — dense encoding has 8 pipe-delimited fields (amended) -/

/-- C7 (amended): every dense-encoded line is the `|`-join of exactly 8 field
strings — id, type code, status glyph, quoted title, time, location, sender,
keywords — with a placeholder for each absent optional field (`—` for time
and location, `?` for sender); provided no field content itself contains the
`|` character, the line splits into exactly 8 pipe-delimited fields. -/
theorem dense_line_eight_fields (nowMs : Int) (e : CompressibleEvent)
    (hp : ∀ f ∈ denseFields nowMs e, ('|' : Char) ∉ f.data) :
    (denseFields nowMs e).length = 8 ∧
    compressEventLine nowMs e = joinWith "|" (denseFields nowMs e) ∧
    (e.event_time = none → (denseFields nowMs e)[4]? = some "—") ∧
    (truthyOpt e.location = none → (denseFields nowMs e)[5]? = some "—") ∧
    (truthyOpt e.sender_name = none → (denseFields nowMs e)[6]? = some "?") ∧
    (splitChars '|' (compressEventLine nowMs e).data).length = 8 := by
  refine ⟨rfl, rfl, fun h => ?_, fun h => ?_, fun h => ?_, ?_⟩
  · simp [denseFields, h]
  · simp [denseFields, truthyD_of_none _ _ h]
  · simp [denseFields, truthyD_of_none _ _ h]
  · have hpipe : ("|" : String) = String.mk ['|'] := rfl
    have hsplit : splitChars '|' (compressEventLine nowMs e).data =
        (denseFields nowMs e).map String.data := by
      rw [compressEventLine, hpipe]
      exact splitChars_joinWith '|' (denseFields nowMs e) (by simp [denseFields]) hp
    rw [hsplit, List.length_map]
    rfl

/-- Witness for C7's amended statement: a pipe-free event with absent time,
location and sender splits into exactly 8 fields with the placeholders. -/
theorem dense_line_eight_fields_witness :
    (splitChars '|' (compressEventLine 0 fxPlainEvent).data).length = 8 ∧
    (denseFields 0 fxPlainEvent)[4]? = some "—" ∧
    (denseFields 0 fxPlainEvent)[5]? = some "—" ∧
    (denseFields 0 fxPlainEvent)[6]? = some "?" :=
  ⟨(dense_line_eight_fields 0 fxPlainEvent (by decide)).2.2.2.2.2,
   (dense_line_eight_fields 0 fxPlainEvent (by decide)).2.2.1 rfl,
   (dense_line_eight_fields 0 fxPlainEvent (by decide)).2.2.2.1 rfl,
   (dense_line_eight_fields 0 fxPlainEvent (by decide)).2.2.2.2.1 rfl⟩

/-- C7 counterexample: the claim asks for exactly 8 pipe-delimited fields for
all possible field contents, but a title containing the delimiter (`"a|b"`)
makes the encoded line split into 9 fields. -/
theorem dense_line_pipe_title_cex :
    (splitChars '|' (compressEventLine 0 fxPipeEvent).data).length ≠ 8 ∧
    (splitChars '|' (compressEventLine 0 fxPipeEvent).data).length = 9 := by
  decide

/-! ## Claim C3 — merge path: description append and participant union -/

/-- C3 (code bug): evaluating the merge path on a target whose stored
participants are `["Alice"]` (and whose `sender_name` is null). The candidate
merges description "New detail" and participant "Bob": the stored description
becomes "Old plan. New detail" as the claim states, but the stored
participants become `["Bob"]` — not the deduplicated union
`["Alice","Bob"]` — because ingestion.ts:334 parses
`existing?.sender_name || '[]'` instead of the existing participants list. -/
theorem merge_participants_from_sender_name :
    (processMessage fxMsg [] (some "Rahul") [fxMergeTarget] (fun _ => none) [fxMergeCand] 1000
        fxMergeState).2.store.map (fun e => (e.description, e.participants)) =
      [(some "Old plan. New detail", "[\"Bob\"]")] ∧
    (processMessage fxMsg [] (some "Rahul") [fxMergeTarget] (fun _ => none) [fxMergeCand] 1000
        fxMergeState).1.eventsCreated = 1 ∧
    jsonStringifyStrList (List.eraseDups (["Alice"] ++ ["Bob"])) = "[\"Alice\",\"Bob\"]" ∧
    "[\"Bob\"]" ≠ "[\"Alice\",\"Bob\"]" := by
  decide

theorem stepOk_webhookActionPhase (msg : Message) (context : List String)
    (senderName : Option String) (det : DetectedAction) (extraction : List ExtractedEvent)
    (parseDate : String → Option Int) (now : Int) (activeEvents : List StoredEvent)
    (σ5 : IngestSt) :
    StepOk σ5 (webhookActionPhase msg context senderName det extraction parseDate now
      activeEvents σ5).2 := by
  rw [webhookActionPhase]
  split
  · exact StepOk.refl _
  · split
    case _ res σ6 heq =>
      have hs : StepOk σ5 σ6 := by
        have h := stepOk_handleAction msg det activeEvents parseDate now σ5
        rw [heq] at h
        exact h
      split
      · exact hs
      · exact hs
    case _ σ6 heq =>
      have hs : StepOk σ5 σ6 := by
        have h := stepOk_handleAction msg det activeEvents parseDate now σ5
        rw [heq] at h
        exact h
      split
      · exact hs
      · exact hs.trans (stepOk_processMessage msg context senderName activeEvents
          parseDate extraction now σ6)

theorem trace_head_of_chain {σ1 σf : IngestSt} (h : StepOk σ1 σf)
    (h1 : σ1.trace = [CallTag.insertMessage]) :
    ∃ rest, σf.trace = CallTag.insertMessage :: rest := by
  obtain ⟨-, -, t, ht⟩ := h
  exact ⟨t, by rw [ht, h1]; rfl⟩

/-! ## Claim C6 — failure isolation and intake durability (amended) -/

/-- C6 (amended): if the `extractEvents` language-model call itself fails,
the processing attempt reports zero events and zero triggers created and the
store is untouched; and for any non-skipped webhook message the raw message
insertion (`insertMessage`) is the first collaborator call of the run, before
any language-model call — intake durability is independent of extraction
success. (A store call failing midway through the candidate loop instead
reports the counts accumulated before the failure; see the counterexample.) -/
theorem extraction_failure_isolation :
    (∀ (msg : Message) (context : List String) (senderName : Option String)
       (existingEvents : List StoredEvent) (parseDate : String → Option Int)
       (extraction : List ExtractedEvent) (now : Int) (σ : IngestSt),
       σ.failed = false → σ.oracle σ.callIdx = true →
       (processMessage msg context senderName existingEvents parseDate extraction now
          σ).1.eventsCreated = 0 ∧
       (processMessage msg context senderName existingEvents parseDate extraction now
          σ).1.triggersCreated = 0 ∧
       (processMessage msg context senderName existingEvents parseDate extraction now
          σ).2.store = σ.store) ∧
    (∀ (wh : WebhookData) (opts : WebhookOptions) (shouldSkipMessage : String → Bool)
       (det : DetectedAction) (extraction : List ExtractedEvent)
       (parseDate : String → Option Int) (now : Int) (σ0 : IngestSt) (content : String),
       σ0.failed = false → σ0.trace = [] → wh.content = some content →
       (wh.fromMe && !opts.processOwnMessages) = false →
       (strContains wh.remoteJid "@g.us" && opts.skipGroupMessages) = false →
       ∃ rest, (processWebhook wh opts shouldSkipMessage det extraction parseDate now
         σ0).2.trace = CallTag.insertMessage :: rest) := by
  constructor
  · intro msg context senderName existingEvents parseDate extraction now σ h1 h2
    rw [processMessage, callOp_fail _ σ h1 h2]
    exact ⟨rfl, rfl, rfl⟩
  · intro wh opts shouldSkipMessage det extraction parseDate now σ0 content h1 htr hc hown hgrp
    have h2 : ∀ m : Message, (insertMessageOp m σ0).trace = [CallTag.insertMessage] := by
      intro m
      rw [insertMessageOp_trace_of_live m σ0 h1, htr]
      rfl
    rw [processWebhook]
    split
    next heq => rw [heq] at hc; exact absurd hc (by simp)
    next c2 heq =>
      rw [if_neg (by rw [hown]; simp), if_neg (by rw [hgrp]; simp)]
      dsimp only
      generalize (Message.mk wh.keyId wh.remoteJid
        (if wh.fromMe = true then "self" else jidUser wh.remoteJid) c2
        wh.messageTimestamp) = M
      split
      · exact trace_head_of_chain (stepOk_upsertContactOp _) (h2 _)
      · split
        · exact trace_head_of_chain (stepOk_upsertContactOp _) (h2 _)
        · exact trace_head_of_chain
            ((stepOk_upsertContactOp _).trans
             ((stepOk_getRecentMessagesOp _ _ _).trans
              ((stepOk_getActiveEventsOp _ _).trans
               ((stepOk_callOp _ _).trans
                (stepOk_webhookActionPhase _ _ _ _ _ _ _ _ _))))) (h2 _)

/-- Witness for C6's amended statement: a failing `extractEvents` call
reports zero events and triggers with the store untouched, and a concrete
webhook run's trace starts with `insertMessage`. -/
theorem extraction_failure_isolation_witness :
    ((processMessage fxMsg [] none [] (fun _ => none) [fxCandA] 5
        fxExtractFailState).1.eventsCreated = 0 ∧
     (processMessage fxMsg [] none [] (fun _ => none) [fxCandA] 5
        fxExtractFailState).1.triggersCreated = 0 ∧
     (processMessage fxMsg [] none [] (fun _ => none) [fxCandA] 5
        fxExtractFailState).2.store = fxExtractFailState.store) ∧
    (∃ rest, (processWebhook fxWebhook fxOptions (fun _ => false) (fxCancel (mkRat 1 2)) []
        (fun _ => none) 1000 fxState).2.trace = CallTag.insertMessage :: rest) :=
  ⟨extraction_failure_isolation.1 fxMsg [] none [] (fun _ => none) [fxCandA] 5
     fxExtractFailState rfl rfl,
   extraction_failure_isolation.2 fxWebhook fxOptions (fun _ => false) (fxCancel (mkRat 1 2))
     [] (fun _ => none) 1000 fxState "cancel the dinner" rfl rfl rfl (by decide) (by decide)⟩

/-- C6 counterexample: the claim says any collaborator failure makes the
attempt report zero events and zero triggers, but when the second candidate's
`insertEvent` store call throws (the fifth collaborator call), the result
reports the one event already created before the failure. -/
theorem extraction_failure_counts_cex :
    (processMessage fxMsg [] (some "R") [] (fun _ => none) [fxCandA, fxCandB] 1000
       fxFailState).2.failed = true ∧
    (processMessage fxMsg [] (some "R") [] (fun _ => none) [fxCandA, fxCandB] 1000
       fxFailState).2.trace =
      [CallTag.extractEvents, CallTag.findDuplicateEvent, CallTag.insertEvent,
       CallTag.findDuplicateEvent, CallTag.insertEvent] ∧
    (processMessage fxMsg [] (some "R") [] (fun _ => none) [fxCandA, fxCandB] 1000
       fxFailState).1.eventsCreated = 1 ∧
    (processMessage fxMsg [] (some "R") [] (fun _ => none) [fxCandA, fxCandB] 1000
       fxFailState).1.eventsCreated ≠ 0 := by
  decide

/-! ## Claim C1 — the action routing gate -/

/-- C1: a detected action may mutate state (or propose a mutation) only if
`isAction` is true, `confidence ≥ 0.6` and `action ≠ 'none'` — when the gate
fails the routing returns control to the extractor with the state completely
untouched; and on the fixture store, a `cancel` at confidence 0.59 mutates
nothing and the run proceeds to the `extractEvents` call, while the same
action at confidence 0.60 deletes the target event and never reaches the
extractor. -/
theorem action_gate_threshold :
    (∀ (msg : Message) (det : DetectedAction) (activeEvents : List StoredEvent)
       (parseDate : String → Option Int) (now : Int) (σ : IngestSt),
       ¬(det.isAction = true ∧ mkRat 6 10 ≤ det.confidence ∧ det.action ≠ "none") →
       handleAction msg det activeEvents parseDate now σ = (none, σ)) ∧
    ((processWebhook fxWebhook fxOptions (fun _ => false) (fxCancel (mkRat 59 100)) []
        (fun _ => none) 1000 fxState).2.store = [fxDinner] ∧
     CallTag.extractEvents ∈ (processWebhook fxWebhook fxOptions (fun _ => false)
        (fxCancel (mkRat 59 100)) [] (fun _ => none) 1000 fxState).2.trace ∧
     (processWebhook fxWebhook fxOptions (fun _ => false) (fxCancel (mkRat 59 100)) []
        (fun _ => none) 1000 fxState).1 =
       some { messageId := "m1", eventsCreated := 0, triggersCreated := 0, skipped := false,
              events := some [] }) ∧
    ((processWebhook fxWebhook fxOptions (fun _ => false) (fxCancel (mkRat 6 10)) []
        (fun _ => none) 1000 fxState).2.store = [] ∧
     CallTag.extractEvents ∉ (processWebhook fxWebhook fxOptions (fun _ => false)
        (fxCancel (mkRat 6 10)) [] (fun _ => none) 1000 fxState).2.trace ∧
     (processWebhook fxWebhook fxOptions (fun _ => false) (fxCancel (mkRat 6 10)) []
        (fun _ => none) 1000 fxState).1 =
       some { messageId := "m1", eventsCreated := 0, triggersCreated := 0, skipped := false,
              actionPerformed := some ⟨"cancel", 1, "Dinner", "Deleted: \"Dinner\""⟩ }) := by
  refine ⟨fun msg det activeEvents parseDate now σ h => ?_, by decide, by decide⟩
  rw [handleAction, if_neg h]

/-- Witness for C1's gated conjunct: the gate rejects a `cancel` at
confidence 0.59 and the routing hands back an untouched state. -/
theorem action_gate_threshold_witness :
    handleAction fxMsg (fxCancel (mkRat 59 100)) [fxDinner] (fun _ => none) 1000 fxState =
      (none, fxState) :=
  action_gate_threshold.1 fxMsg (fxCancel (mkRat 59 100)) [fxDinner] (fun _ => none) 1000
    fxState (by decide)

/-! ## Claim C2 — modify yields a PendingAction and never writes (amended) -/

theorem actionSwitch_modify (msg : Message) (det : DetectedAction) (te : StoredEvent)
    (parseDate : String → Option Int) (now : Int) (σ : IngestSt)
    (hmod : det.action = "modify") :
    (actionSwitch msg det te parseDate now σ).2 = σ ∧
    ((buildProposedChanges det parseDate now).isEmpty = false →
      (actionSwitch msg det te parseDate now σ).1 =
        some { messageId := msg.id, eventsCreated := 0, triggersCreated := 0, skipped := false,
               pendingAction := some ⟨"modify", te.id, te.title,
                 buildProposedChanges det parseDate now,
                 changeDescOf (buildProposedChanges det parseDate now)⟩ }) ∧
    ((buildProposedChanges det parseDate now).isEmpty = true →
      (actionSwitch msg det te parseDate now σ).1 =
        some { messageId := msg.id, eventsCreated := 0, triggersCreated := 0, skipped := false,
               actionPerformed := some ⟨"modify", te.id, te.title,
                 "Modify requested but no changes specified"⟩ }) := by
  rw [actionSwitch]
  simp only [hmod]
  rw [if_neg (by decide), if_neg (by decide), if_neg (by decide), if_neg (by decide),
      if_pos trivial]
  refine ⟨?_, fun h => ?_, fun h => ?_⟩
  · split <;> rfl
  · rw [if_neg (by simp [h])]
  · rw [if_pos h]

/-- C2 (amended): a message routed as a `modify` action with a resolved
target never writes to the store — the state's event list is identical
before and after — and returns a PendingAction carrying the proposed changes
and the human-readable description whenever at least one valid change was
proposed; when no valid change was proposed it instead reports an
`actionPerformed` notice (still without touching the store). -/
theorem modify_action_pending_frame (msg : Message) (det : DetectedAction)
    (activeEvents : List StoredEvent) (parseDate : String → Option Int) (now : Int)
    (σ : IngestSt) (te : StoredEvent)
    (hnf : σ.failed = false) (hor : ∀ n, σ.oracle n = false)
    (hact : det.isAction = true) (hconf : mkRat 6 10 ≤ det.confidence)
    (hmod : det.action = "modify")
    (hres : resolveTargetPure det.targetKeywords activeEvents σ.store = some te)
    (hid : te.id ≠ 0) :
    (handleAction msg det activeEvents parseDate now σ).2.store = σ.store ∧
    ((buildProposedChanges det parseDate now).isEmpty = false →
      (handleAction msg det activeEvents parseDate now σ).1 =
        some { messageId := msg.id, eventsCreated := 0, triggersCreated := 0, skipped := false,
               pendingAction := some ⟨"modify", te.id, te.title,
                 buildProposedChanges det parseDate now,
                 changeDescOf (buildProposedChanges det parseDate now)⟩ }) ∧
    ((buildProposedChanges det parseDate now).isEmpty = true →
      (handleAction msg det activeEvents parseDate now σ).1 =
        some { messageId := msg.id, eventsCreated := 0, triggersCreated := 0, skipped := false,
               actionPerformed := some ⟨"modify", te.id, te.title,
                 "Modify requested but no changes specified"⟩ }) := by
  have hgate : det.isAction = true ∧ mkRat 6 10 ≤ det.confidence ∧ det.action ≠ "none" :=
    ⟨hact, hconf, by rw [hmod]; decide⟩
  rw [handleAction, if_pos hgate]
  by_cases hkw : det.targetKeywords ≠ []
  · rw [if_pos hkw, callOp_nofail _ σ hnf (hor _)]
    dsimp only
    rw [if_pos rfl, hres]
    dsimp only
    rw [if_pos hid]
    obtain ⟨hstore, hpend, hperf⟩ := actionSwitch_modify msg det te parseDate now _ hmod
    exact ⟨by rw [hstore], hpend, hperf⟩
  · rw [if_neg hkw]
    dsimp only
    rw [if_pos rfl, hres]
    dsimp only
    rw [if_pos hid]
    obtain ⟨hstore, hpend, hperf⟩ := actionSwitch_modify msg det te parseDate now σ hmod
    exact ⟨by rw [hstore], hpend, hperf⟩

/-- Witness for C2's amended statement: a modify proposing a new title yields
the PendingAction with those changes and leaves the store untouched. -/
theorem modify_action_pending_frame_witness :
    (handleAction fxMsg fxModifyTitle [fxDinner] (fun _ => none) 1000 fxState).2.store =
      fxState.store ∧
    (handleAction fxMsg fxModifyTitle [fxDinner] (fun _ => none) 1000 fxState).1 =
      some { messageId := "m2", eventsCreated := 0, triggersCreated := 0, skipped := false,
             pendingAction := some ⟨"modify", 1, "Dinner",
               buildProposedChanges fxModifyTitle (fun _ => none) 1000,
               changeDescOf (buildProposedChanges fxModifyTitle (fun _ => none) 1000)⟩ } := by
  have h := modify_action_pending_frame fxMsg fxModifyTitle [fxDinner] (fun _ => none) 1000
    fxState fxDinner rfl (fun _ => rfl) rfl (by decide) rfl (by decide) (by decide)
  exact ⟨h.1, h.2.1 (by decide)⟩

/-- C2 counterexample: the claim says a routed `modify` with a resolved
target always returns a PendingAction, but a modify whose classifier reply
carries no new field values returns an `actionPerformed` notice with no
PendingAction (the store is still untouched). -/
theorem modify_without_changes_cex :
    (handleAction fxMsg fxModifyEmpty [fxDinner] (fun _ => none) 1000 fxState).1 =
      some { messageId := "m2", eventsCreated := 0, triggersCreated := 0, skipped := false,
             actionPerformed := some ⟨"modify", 1, "Dinner",
               "Modify requested but no changes specified"⟩ } ∧
    ((handleAction fxMsg fxModifyEmpty [fxDinner] (fun _ => none) 1000 fxState).1.bind
       (fun r => r.pendingAction)) = none ∧
    (handleAction fxMsg fxModifyEmpty [fxDinner] (fun _ => none) 1000 fxState).2.store =
      fxState.store := by
  decide

/-! ## Store-preservation lemmas for the trigger phases -/

theorem insertTriggerOp_store (tr : TriggerRec) (σ : IngestSt) :
    (insertTriggerOp tr σ).1.store = σ.store := by
  rw [insertTriggerOp]
  dsimp only
  split
  · exact callOp_store _ σ
  · exact callOp_store _ σ

theorem addTimeTriggers_store (eid : Nat) (et now : Int) :
    ∀ (l : List (String × Int)) (acc : IngestSt × ExtractCounters),
      (addTimeTriggers eid et now l acc).1.store = acc.1.store := by
  intro l
  induction l with
  | nil => intro acc; rfl
  | cons p rest ih =>
    intro acc
    obtain ⟨σ, k⟩ := acc
    obtain ⟨ty, offset⟩ := p
    rw [addTimeTriggers]
    dsimp only
    split
    · rw [ih _]
      exact insertTriggerOp_store _ σ
    · exact ih (σ, k)

theorem addKeywordTriggers_store (eid : Nat) :
    ∀ (l : List String) (acc : IngestSt × ExtractCounters),
      (addKeywordTriggers eid l acc).1.store = acc.1.store := by
  intro l
  induction l with
  | nil => intro acc; rfl
  | cons kw rest ih =>
    intro acc
    obtain ⟨σ, k⟩ := acc
    rw [addKeywordTriggers]
    rw [ih _]
    exact insertTriggerOp_store _ σ

theorem conflictCheckStep_store (eid : Nat) (eventTime : Option Int)
    (acc : IngestSt × ExtractCounters) :
    (conflictCheckStep eid eventTime acc).1.store = acc.1.store := by
  rw [conflictCheckStep]
  split
  · exact callOp_store _ _
  · rfl

theorem timeTriggersStep_store (eid : Nat) (eventTime : Option Int) (now : Int)
    (acc : IngestSt × ExtractCounters) :
    (timeTriggersStep eid eventTime now acc).1.store = acc.1.store := by
  rw [timeTriggersStep]
  split
  · exact addTimeTriggers_store _ _ _ _ _
  · rfl

theorem urlTriggerStep_store (eid : Nat) (loc : Option String)
    (acc : IngestSt × ExtractCounters) :
    (urlTriggerStep eid loc acc).1.store = acc.1.store := by
  rw [urlTriggerStep]
  split
  · exact insertTriggerOp_store _ _
  · rfl

theorem keywordTriggersStep_store (eid : Nat) (kws : List String)
    (acc : IngestSt × ExtractCounters) :
    (keywordTriggersStep eid kws acc).1.store = acc.1.store :=
  addKeywordTriggers_store _ _ _

/-! ## Claim C5 — initial status of a created event -/

/-- C5: a created event is inserted with status `scheduled` exactly when
context-tag resolution produced a context tag, and with status `discovered`
exactly when it produced none (in particular also when a time resolved) — no
other initial status is possible; and on a live run that passes the dedup
check, `processCreate` appends to the store exactly the event row carrying
that status. -/
theorem created_event_status (msg : Message) (senderName : Option String)
    (ev : ExtractedEvent) (eventTime : Option Int) (eid : Nat) (now : Int) :
    ((mkStoredEvent msg senderName ev eventTime (resolveContextUrl ev) eid now).status
        = "scheduled" ↔ (resolveContextUrl ev).isSome = true) ∧
    ((mkStoredEvent msg senderName ev eventTime (resolveContextUrl ev) eid now).status
        = "discovered" ↔ resolveContextUrl ev = none) ∧
    (∀ (σ : IngestSt) (k : ExtractCounters) (parseDate : String → Option Int),
       σ.failed = false → (∀ n, σ.oracle n = false) →
       findDuplicateEventModel ev.title 48 now σ.store = none →
       (processCreate msg senderName parseDate now ev σ k).1.store =
         σ.store ++ [mkStoredEvent msg senderName ev (createEventTimeOf ev parseDate now)
           (resolveContextUrl ev) σ.nextEventId now]) := by
  have hstat : (mkStoredEvent msg senderName ev eventTime (resolveContextUrl ev) eid now).status
      = initialStatusOf (resolveContextUrl ev) := rfl
  refine ⟨?_, ?_, ?_⟩
  · rw [hstat, initialStatusOf]
    rcases resolveContextUrl ev with _ | u <;> simp
  · rw [hstat, initialStatusOf]
    rcases resolveContextUrl ev with _ | u <;> simp
  · intro σ k parseDate hnf hor hdup
    rw [processCreate, callOp_nofail _ σ hnf (hor _)]
    dsimp only
    rw [if_neg (by decide)]
    rw [hdup]
    rw [if_neg (by decide)]
    have hcall := callOp_nofail CallTag.insertEvent ({ σ with callIdx := σ.callIdx + 1, trace := σ.trace ++ [CallTag.findDuplicateEvent], failed := false } : IngestSt) rfl (hor _)
    rw [hcall]
    dsimp only
    rw [if_neg (by decide)]
    rw [keywordTriggersStep_store, urlTriggerStep_store, timeTriggersStep_store,
        conflictCheckStep_store]

/-- Witness for C5: a candidate mentioning `netflix` is inserted in
`scheduled`; a plain candidate with a resolved time is inserted in
`discovered`; and the store after a live `processCreate` run ends with
exactly the new row. -/
theorem created_event_status_witness :
    (mkStoredEvent fxMsg none fxNetflixCand none (resolveContextUrl fxNetflixCand) 1 0).status
      = "scheduled" ∧
    (mkStoredEvent fxMsg none fxPlainCand (some 1705305600)
        (resolveContextUrl fxPlainCand) 1 0).status = "discovered" ∧
    (processCreate fxMsg none (fun _ => none) 1000 fxNetflixCand fxState
        ({} : ExtractCounters)).1.store =
      fxState.store ++ [mkStoredEvent fxMsg none fxNetflixCand
        (createEventTimeOf fxNetflixCand (fun _ => none) 1000)
        (resolveContextUrl fxNetflixCand) fxState.nextEventId 1000] :=
  ⟨(created_event_status fxMsg none fxNetflixCand none 1 0).1.mpr (by decide),
   (created_event_status fxMsg none fxPlainCand (some 1705305600) 1 0).2.1.mpr (by decide),
   (created_event_status fxMsg none fxNetflixCand none 1 1000).2.2 fxState
     ({} : ExtractCounters) (fun _ => none) rfl (fun _ => rfl) (by decide)⟩

/-! ## Claim C10 — a detected but unresolved action falls through -/

theorem handleAction_no_target (msg : Message) (det : DetectedAction)
    (parseDate : String → Option Int) (now : Int) (σ : IngestSt)
    (hnf : σ.failed = false) (hor : ∀ n, σ.oracle n = false)
    (hkwEmpty : findActiveEventsByKeywordsModel det.targetKeywords σ.store = []) :
    ∃ σ6, handleAction msg det [] parseDate now σ = (none, σ6) ∧
      σ6.store = σ.store ∧ σ6.failed = false := by
  rw [handleAction]
  split
  · by_cases hkw : det.targetKeywords ≠ []
    · rw [if_pos hkw, callOp_nofail _ σ hnf (hor _)]
      dsimp only
      rw [if_pos rfl]
      have hres : resolveTargetPure det.targetKeywords []
          ({ σ with callIdx := σ.callIdx + 1, trace := σ.trace ++ [CallTag.findActiveEventsByKeywords], failed := false } : IngestSt).store = none := by
        rw [resolveTargetPure]
        dsimp only
        rw [if_pos hkw, hkwEmpty]
        rfl
      rw [hres]
      exact ⟨_, rfl, rfl, rfl⟩
    · rw [if_neg hkw]
      dsimp only
      rw [if_pos rfl]
      have hres : resolveTargetPure det.targetKeywords [] σ.store = none := by
        rw [resolveTargetPure]
        rw [if_neg hkw]
        rfl
      rw [hres]
      exact ⟨σ, rfl, rfl, hnf⟩
  · exact ⟨σ, rfl, rfl, hnf⟩

/-- C10: when an action passes the routing gate but no target event resolves
— the keyword search over active events finds nothing and the active-event
list is empty — step 1 mutates nothing and produces no PendingAction (the
routing returns `none` with the store untouched), and the same message then
falls through to event extraction: the `extractEvents` call appears in the
run's trace and the outcome carries neither an `actionPerformed` nor a
`pendingAction`. -/
theorem unresolved_action_falls_through :
    (∀ (msg : Message) (det : DetectedAction) (parseDate : String → Option Int) (now : Int)
       (σ : IngestSt),
       σ.failed = false → (∀ n, σ.oracle n = false) →
       findActiveEventsByKeywordsModel det.targetKeywords σ.store = [] →
       (handleAction msg det [] parseDate now σ).1 = none ∧
       (handleAction msg det [] parseDate now σ).2.store = σ.store) ∧
    (∀ (msg : Message) (context : List String) (senderName : Option String)
       (det : DetectedAction) (extraction : List ExtractedEvent)
       (parseDate : String → Option Int) (now : Int) (σ5 : IngestSt),
       σ5.failed = false → (∀ n, σ5.oracle n = false) →
       findActiveEventsByKeywordsModel det.targetKeywords σ5.store = [] →
       CallTag.extractEvents ∈ (webhookActionPhase msg context senderName det extraction
         parseDate now [] σ5).2.trace ∧
       (∃ res, (webhookActionPhase msg context senderName det extraction parseDate now []
          σ5).1 = some res ∧ res.pendingAction = none ∧ res.actionPerformed = none ∧
          res.skipped = false)) := by
  constructor
  · intro msg det parseDate now σ hnf hor hkwEmpty
    obtain ⟨σ6, heq, hst, -⟩ := handleAction_no_target msg det parseDate now σ hnf hor hkwEmpty
    rw [heq]
    exact ⟨rfl, hst⟩
  · intro msg context senderName det extraction parseDate now σ5 hnf hor hkwEmpty
    obtain ⟨σ6, heq, hst, hf⟩ := handleAction_no_target msg det parseDate now σ5 hnf hor hkwEmpty
    rw [webhookActionPhase, if_neg (by simp [hnf]), heq]
    dsimp only
    rw [if_neg (by simp [hf])]
    dsimp only
    obtain ⟨h1, h2, h3⟩ := processMessage_result_shape msg context senderName [] parseDate
      extraction now σ6
    exact ⟨processMessage_trace_mem msg context senderName [] parseDate extraction now σ6 hf,
      (processMessage msg context senderName [] parseDate extraction now σ6).1, rfl, h2, h1, h3⟩

/-- Witness for C10: a passing `cancel` with no matching keyword search and
an empty active-event list mutates nothing at step 1, and the phase run
reaches the `extractEvents` call with neither action result nor pending
action. -/
theorem unresolved_action_falls_through_witness :
    ((handleAction fxMsg (fxCancel (mkRat 8 10)) [] (fun _ => none) 1000 fxEmptyState).1 = none ∧
     (handleAction fxMsg (fxCancel (mkRat 8 10)) [] (fun _ => none) 1000
        fxEmptyState).2.store = fxEmptyState.store) ∧
    (CallTag.extractEvents ∈ (webhookActionPhase fxMsg [] none (fxCancel (mkRat 8 10)) []
       (fun _ => none) 1000 [] fxEmptyState).2.trace ∧
     (∃ res, (webhookActionPhase fxMsg [] none (fxCancel (mkRat 8 10)) [] (fun _ => none) 1000
        [] fxEmptyState).1 = some res ∧ res.pendingAction = none ∧ res.actionPerformed = none ∧
        res.skipped = false)) :=
  ⟨unresolved_action_falls_through.1 fxMsg (fxCancel (mkRat 8 10)) (fun _ => none) 1000
     fxEmptyState rfl (fun _ => rfl) rfl,
   unresolved_action_falls_through.2 fxMsg [] none (fxCancel (mkRat 8 10)) [] (fun _ => none)
     1000 fxEmptyState rfl (fun _ => rfl) rfl⟩
